import Mathlib

/-!
Shallow embedding of the chess-ai repository (Go) in Lean 4.

Conventions of the embedding:
* Go `int` is modelled as `ℤ`, Go `float64` as `ℚ` (exact arithmetic; the
  source's floating-point rounding is idealized away — every property below
  is about the algebraic structure of the computations, not about rounding).
* Go's `math.Tanh` and its derivative are not rational functions, so the
  activation pair is abstracted as a parameter `Act` (a function together
  with its derivative); theorems quantify over it, and concrete instances
  used in counterexamples agree with tanh at every point at which they are
  evaluated there.
* Board cells (`[8][8]Piece`) are a list of rows; out-of-range reads (a
  runtime panic in Go) are totalized to the empty piece and out-of-range
  writes to no-ops; all verified code paths stay in range.
* In-place mutation becomes explicit state passing; `Clone` is the identity
  on the pure `Board` value.
* The repository's `game` package appears in two revisions; the check-aware
  revision (with `wouldBeInCheck`, check-aware `canCastle` and
  checkmate/stalemate detection in `checkGameOver`) is embedded here, as the
  specification designates it authoritative.
-/

set_option maxRecDepth 4000

namespace ChessAI

/-- Piece color (source: `game.Color`). -/
inductive Color where
  | White
  | Black
deriving DecidableEq, Repr

/-- Piece kind (source: `game.PieceType`; `Type` is a reserved word in Lean,
so the field/constructor family is called `kind` below). -/
inductive PieceType where
  | Empty
  | Pawn
  | Knight
  | Bishop
  | Rook
  | Queen
  | King
deriving DecidableEq, Repr

/-- A piece: kind and color (source: `game.Piece`). -/
structure Piece where
  kind : PieceType
  color : Color
deriving DecidableEq, Repr

/-- A square, row and column (source: `game.Position`, Go `int` fields). -/
structure Position where
  Row : ℤ
  Col : ℤ
deriving DecidableEq, Repr

/-- A move: source and destination squares (source: `game.Move`). -/
structure Move where
  From : Position
  To : Position
deriving DecidableEq, Repr

/-- Full board state (source: `game.Board`, check-aware revision). -/
structure Board where
  Cells : List (List Piece)
  CurrentTurn : Color
  GameOver : Bool
  Winner : Color
  IsCheck : Bool
  EnPassantTarget : Option Position
  WhiteKingMoved : Bool
  BlackKingMoved : Bool
  WhiteRookAMoved : Bool
  WhiteRookHMoved : Bool
  BlackRookAMoved : Bool
  BlackRookHMoved : Bool
  MovesCount : ℤ
deriving DecidableEq, Repr

/-- The piece stored on empty squares (source writes `Piece{Empty, White}`). -/
def emptyPiece : Piece := ⟨PieceType.Empty, Color.White⟩

/-- Read a cell. Source: `b.Cells[r][c]`; out-of-range reads (which would
panic in Go and never happen on the verified paths) yield the empty piece. -/
def Board.cell (b : Board) (r c : ℤ) : Piece :=
  if 0 ≤ r ∧ r ≤ 7 ∧ 0 ≤ c ∧ c ≤ 7 then
    ((b.Cells.getD r.toNat []).getD c.toNat emptyPiece)
  else emptyPiece

/-- Write a cell. Source: `b.Cells[r][c] = p`; out-of-range writes are
no-ops (they never happen on the verified paths). -/
def Board.setCell (b : Board) (r c : ℤ) (p : Piece) : Board :=
  if 0 ≤ r ∧ r ≤ 7 ∧ 0 ≤ c ∧ c ≤ 7 then
    { b with Cells := b.Cells.set r.toNat ((b.Cells.getD r.toNat []).set c.toNat p) }
  else b

/-- Integer absolute value (source helper `abs` in package `game`). -/
def absI (x : ℤ) : ℤ := if x < 0 then -x else x

/-- The opposing color (the source computes this inline:
`opponentColor := Black; if color == Black { opponentColor = White }`). -/
def opponentOf (c : Color) : Color :=
  match c with
  | Color.White => Color.Black
  | Color.Black => Color.White

/-- Knight move test (source: `isValidKnightMove`). -/
def isValidKnightMove (m : Move) : Bool :=
  let rowDiff := absI (m.To.Row - m.From.Row)
  let colDiff := absI (m.To.Col - m.From.Col)
  decide ((rowDiff = 2 ∧ colDiff = 1) ∨ (rowDiff = 1 ∧ colDiff = 2))

/-- Loop body of `isPathClear` (source: the `for row != ... || col != ...`
walk). The walk takes at most 7 steps on every aligned in-range move, so a
fuel of 16 makes the translation total without changing any reachable
behavior. -/
def pathClearLoop (b : Board) (toRow toCol rowStep colStep : ℤ) :
    Nat → ℤ → ℤ → Bool
  | 0, _, _ => true
  | fuel + 1, row, col =>
    if row = toRow ∧ col = toCol then true
    else if (b.cell row col).kind ≠ PieceType.Empty then false
    else pathClearLoop b toRow toCol rowStep colStep fuel (row + rowStep) (col + colStep)

/-- Direction of one coordinate of the walk (source: the `rowStep`/`colStep`
computation at the top of `isPathClear`). -/
def stepSign (x : ℤ) : ℤ := if 0 < x then 1 else if x < 0 then -1 else 0

/-- Path clearance between two squares (source: `isPathClear`). -/
def isPathClear (b : Board) (m : Move) : Bool :=
  let rowStep := stepSign (m.To.Row - m.From.Row)
  let colStep := stepSign (m.To.Col - m.From.Col)
  pathClearLoop b m.To.Row m.To.Col rowStep colStep 16
    (m.From.Row + rowStep) (m.From.Col + colStep)

/-- Bishop move test (source: `isValidBishopMove`). -/
def isValidBishopMove (b : Board) (m : Move) : Bool :=
  let rowDiff := absI (m.To.Row - m.From.Row)
  let colDiff := absI (m.To.Col - m.From.Col)
  if rowDiff ≠ colDiff then false else isPathClear b m

/-- Rook move test (source: `isValidRookMove`). -/
def isValidRookMove (b : Board) (m : Move) : Bool :=
  if m.From.Row ≠ m.To.Row ∧ m.From.Col ≠ m.To.Col then false
  else isPathClear b m

/-- Queen move test (source: `isValidQueenMove`). -/
def isValidQueenMove (b : Board) (m : Move) : Bool :=
  isValidBishopMove b m || isValidRookMove b m

/-- Pawn move test, including en passant (source: `isValidPawnMove`). -/
def isValidPawnMove (b : Board) (m : Move) (piece : Piece) : Bool :=
  let direction : ℤ := if piece.color = Color.Black then 1 else -1
  let startRow : ℤ := if piece.color = Color.Black then 1 else 6
  let rowDiff := m.To.Row - m.From.Row
  let colDiff := m.To.Col - m.From.Col
  if colDiff = 0 ∧ rowDiff = direction then
    decide ((b.cell m.To.Row m.To.Col).kind = PieceType.Empty)
  else if colDiff = 0 ∧ rowDiff = 2 * direction ∧ m.From.Row = startRow then
    decide ((b.cell (m.From.Row + direction) m.From.Col).kind = PieceType.Empty ∧
      (b.cell m.To.Row m.To.Col).kind = PieceType.Empty)
  else if absI colDiff = 1 ∧ rowDiff = direction then
    let target := b.cell m.To.Row m.To.Col
    if target.kind ≠ PieceType.Empty ∧ target.color ≠ piece.color then true
    else
      match b.EnPassantTarget with
      | some t => decide (m.To.Row = t.Row ∧ m.To.Col = t.Col)
      | none => false
  else false

/-- The standard initial position (source: `NewBoard` / `setupInitialPosition`). -/
def NewBoard : Board :=
  let backRank (c : Color) : List Piece :=
    [⟨PieceType.Rook, c⟩, ⟨PieceType.Knight, c⟩, ⟨PieceType.Bishop, c⟩, ⟨PieceType.Queen, c⟩,
     ⟨PieceType.King, c⟩, ⟨PieceType.Bishop, c⟩, ⟨PieceType.Knight, c⟩, ⟨PieceType.Rook, c⟩]
  let pawnRank (c : Color) : List Piece := List.replicate 8 ⟨PieceType.Pawn, c⟩
  let emptyRank : List Piece := List.replicate 8 emptyPiece
  { Cells := [backRank Color.Black, pawnRank Color.Black,
              emptyRank, emptyRank, emptyRank, emptyRank,
              pawnRank Color.White, backRank Color.White]
    CurrentTurn := Color.White
    GameOver := false
    Winner := Color.White
    IsCheck := false
    EnPassantTarget := none
    WhiteKingMoved := false
    BlackKingMoved := false
    WhiteRookAMoved := false
    WhiteRookHMoved := false
    BlackRookAMoved := false
    BlackRookHMoved := false
    MovesCount := 0 }

/-- Squares in board-scan order: rows 0→7, then columns 0→7 (the nested
`for` loops the source uses everywhere it scans the board). -/
def allSquares : List (ℤ × ℤ) :=
  (List.range 8).flatMap fun r => (List.range 8).map fun c => ((r : ℤ), (c : ℤ))

/-- Attack test against a square (source: `isSquareUnderAttack`). Scans every
piece of `byColor`; pawns use the diagonal-attack pattern, the other kinds
their basic movement tests (castling and check recursion excluded, as in the
source). -/
def isSquareUnderAttack (b : Board) (pos : Position) (byColor : Color) : Bool :=
  allSquares.any fun rc =>
    let piece := b.cell rc.1 rc.2
    if piece.kind = PieceType.Empty ∨ piece.color ≠ byColor then false
    else
      let m : Move := ⟨⟨rc.1, rc.2⟩, pos⟩
      match piece.kind with
      | PieceType.Pawn =>
        let direction : ℤ := if piece.color = Color.Black then 1 else -1
        decide (pos.Row - rc.1 = direction ∧ absI (pos.Col - rc.2) = 1)
      | PieceType.Knight => isValidKnightMove m
      | PieceType.Bishop => isValidBishopMove b m
      | PieceType.Rook => isValidRookMove b m
      | PieceType.Queen => isValidQueenMove b m
      | PieceType.King =>
        decide (absI (pos.Row - rc.1) ≤ 1 ∧ absI (pos.Col - rc.2) ≤ 1)
      | PieceType.Empty => false

/-- Castling test (source: `canCastle`, check-aware revision). Called by
`isValidKingMove` only under `rowDiff = 0 ∧ colDiff = 2`; under that guard
the source's transit loop (`for col := From.Col + step; col != To.Col+step`)
visits exactly the two squares `From.Col + step` and `To.Col`, which is how
it is rendered here. -/
def canCastle (b : Board) (m : Move) (piece : Piece) : Bool :=
  if piece.color = Color.White ∧ b.WhiteKingMoved = true then false
  else if piece.color = Color.Black ∧ b.BlackKingMoved = true then false
  else
    let isKingSide := m.From.Col < m.To.Col
    let rookCol : ℤ := if isKingSide then 7 else 0
    let rookMoved : Bool :=
      if piece.color = Color.White then
        (if isKingSide then b.WhiteRookHMoved else b.WhiteRookAMoved)
      else
        (if isKingSide then b.BlackRookHMoved else b.BlackRookAMoved)
    if rookMoved then false
    else
      let rook := b.cell m.From.Row rookCol
      if rook.kind ≠ PieceType.Rook ∨ rook.color ≠ piece.color then false
      else
        let minCol := min m.From.Col rookCol
        let maxCol := max m.From.Col rookCol
        let betweenCols : List ℤ :=
          (List.range (maxCol - minCol - 1).toNat).map fun i : ℕ => minCol + 1 + (i : ℤ)
        if ¬ (betweenCols.all fun col => (b.cell m.From.Row col).kind = PieceType.Empty)
        then false
        else
          let opponentColor := opponentOf piece.color
          if isSquareUnderAttack b m.From opponentColor then false
          else
            let step : ℤ := if m.To.Col < m.From.Col then -1 else 1
            ¬ (([m.From.Col + step, m.To.Col].any fun col =>
              isSquareUnderAttack b ⟨m.From.Row, col⟩ opponentColor))

/-- King move test, including castling (source: `isValidKingMove`). -/
def isValidKingMove (b : Board) (m : Move) (piece : Piece) : Bool :=
  let rowDiff := absI (m.To.Row - m.From.Row)
  let colDiff := absI (m.To.Col - m.From.Col)
  if rowDiff ≤ 1 ∧ colDiff ≤ 1 then true
  else if rowDiff = 0 ∧ colDiff = 2 then canCastle b m piece
  else false

/-- Locate the king of a color; `(-1, -1)` if absent (source: `findKing`,
with the same scan order and early return). -/
def findKing (b : Board) (color : Color) : Position :=
  match allSquares.find? fun rc =>
      decide ((b.cell rc.1 rc.2).kind = PieceType.King ∧ (b.cell rc.1 rc.2).color = color) with
  | some rc => ⟨rc.1, rc.2⟩
  | none => ⟨-1, -1⟩

/-- Check test for a color's king (source: `isInCheck`). -/
def isInCheck (b : Board) (color : Color) : Bool :=
  let kingPos := findKing b color
  if kingPos.Row = -1 then false
  else isSquareUnderAttack b kingPos (opponentOf color)

/-- Simulated-check test (source: `wouldBeInCheck`): clone the board, move
the piece from source to destination as a bare relocation — note the source
performs neither en-passant pawn removal nor castling rook relocation here —
and test for check. -/
def wouldBeInCheck (b : Board) (m : Move) (color : Color) : Bool :=
  let piece := b.cell m.From.Row m.From.Col
  let t1 := b.setCell m.To.Row m.To.Col piece
  let t2 := t1.setCell m.From.Row m.From.Col emptyPiece
  isInCheck t2 color

/-- Full move validation (source: `IsValidMove`, check-aware revision). -/
def IsValidMove (b : Board) (m : Move) : Bool :=
  if m.From.Row < 0 ∨ m.From.Row > 7 ∨ m.From.Col < 0 ∨ m.From.Col > 7 then false
  else if m.To.Row < 0 ∨ m.To.Row > 7 ∨ m.To.Col < 0 ∨ m.To.Col > 7 then false
  else
    let piece := b.cell m.From.Row m.From.Col
    if piece.kind = PieceType.Empty then false
    else if piece.color ≠ b.CurrentTurn then false
    else
      let target := b.cell m.To.Row m.To.Col
      if target.kind ≠ PieceType.Empty ∧ target.color = piece.color then false
      else
        let validMove : Bool :=
          match piece.kind with
          | PieceType.Pawn => isValidPawnMove b m piece
          | PieceType.Knight => isValidKnightMove m
          | PieceType.Bishop => isValidBishopMove b m
          | PieceType.Rook => isValidRookMove b m
          | PieceType.Queen => isValidQueenMove b m
          | PieceType.King => isValidKingMove b m piece
          | PieceType.Empty => false
        if validMove = false then false
        else ¬ (wouldBeInCheck b m piece.color)

/-- All legal moves for the side to move, in source-scan order then
destination-scan order (source: `GetLegalMoves`). -/
def GetLegalMoves (b : Board) : List Move :=
  allSquares.flatMap fun fromRC =>
    let piece := b.cell fromRC.1 fromRC.2
    if piece.kind = PieceType.Empty ∨ piece.color ≠ b.CurrentTurn then []
    else
      allSquares.flatMap fun toRC =>
        let m : Move := ⟨⟨fromRC.1, fromRC.2⟩, ⟨toRC.1, toRC.2⟩⟩
        if IsValidMove b m then [m] else []

/-- Game-over detection (source: `checkGameOver`, check-aware revision):
no legal moves → game over, winner = the opponent if the side to move is in
check, otherwise `White` as the draw marker; a move count above 200 forces
game over with `White` as the draw marker. -/
def checkGameOver (b : Board) : Board :=
  let moves := GetLegalMoves b
  let b1 :=
    if moves = [] then
      if isInCheck b b.CurrentTurn then
        { b with GameOver := true, Winner := opponentOf b.CurrentTurn }
      else
        { b with GameOver := true, Winner := Color.White }
    else b
  if 200 < b1.MovesCount then { b1 with GameOver := true, Winner := Color.White }
  else b1

/-- Apply a move unconditionally (source: `MakeMove`, check-aware revision):
en-passant pawn removal, castling rook relocation, the main relocation,
promotion to queen, en-passant-target bookkeeping, has-moved flags, turn
flip, move-counter increment, check-flag recomputation, game-over check. -/
def MakeMove (b : Board) (m : Move) : Board :=
  let piece := b.cell m.From.Row m.From.Col
  let epCapture : Bool :=
    match b.EnPassantTarget with
    | some t => decide (piece.kind = PieceType.Pawn ∧ m.To.Row = t.Row ∧ m.To.Col = t.Col)
    | none => false
  let b1 :=
    if epCapture then
      if piece.color = Color.White then b.setCell (m.To.Row + 1) m.To.Col emptyPiece
      else b.setCell (m.To.Row - 1) m.To.Col emptyPiece
    else b
  let b2 :=
    if piece.kind = PieceType.King ∧ absI (m.To.Col - m.From.Col) = 2 then
      if m.From.Col < m.To.Col then
        (b1.setCell m.From.Row 5 (b1.cell m.From.Row 7)).setCell m.From.Row 7 emptyPiece
      else
        (b1.setCell m.From.Row 3 (b1.cell m.From.Row 0)).setCell m.From.Row 0 emptyPiece
    else b1
  let b3 := (b2.setCell m.To.Row m.To.Col piece).setCell m.From.Row m.From.Col emptyPiece
  let b4 :=
    if piece.kind = PieceType.Pawn ∧
        ((piece.color = Color.White ∧ m.To.Row = 0) ∨
         (piece.color = Color.Black ∧ m.To.Row = 7)) then
      b3.setCell m.To.Row m.To.Col ⟨PieceType.Queen, piece.color⟩
    else b3
  let b5 :=
    if piece.kind = PieceType.Pawn ∧ absI (m.To.Row - m.From.Row) = 2 then
      { b4 with EnPassantTarget := some ⟨(m.From.Row + m.To.Row) / 2, m.To.Col⟩ }
    else { b4 with EnPassantTarget := none }
  let b6 :=
    if piece.kind = PieceType.King then
      if piece.color = Color.White then { b5 with WhiteKingMoved := true }
      else { b5 with BlackKingMoved := true }
    else b5
  let b7 :=
    if piece.kind = PieceType.Rook then
      if piece.color = Color.White then
        (if m.From.Col = 0 then { b6 with WhiteRookAMoved := true }
         else if m.From.Col = 7 then { b6 with WhiteRookHMoved := true } else b6)
      else
        (if m.From.Col = 0 then { b6 with BlackRookAMoved := true }
         else if m.From.Col = 7 then { b6 with BlackRookHMoved := true } else b6)
    else b6
  let b8 := { b7 with CurrentTurn := opponentOf b7.CurrentTurn }
  let b9 := { b8 with MovesCount := b8.MovesCount + 1 }
  let b10 := { b9 with IsCheck := isInCheck b9 b9.CurrentTurn }
  checkGameOver b10

/-! ## Specification-side predicates (spec §4.1), used for the refinement
statements. These follow the spec's words; the board primitives (`cell`,
`isSquareUnderAttack`, `isInCheck`) are shared with the embedding since the
spec refers to the same notions ("attacked", "in check"). -/

/-- A square is in range (spec §3: (row, col) ∈ [0,8)×[0,8)). -/
def inRange (p : Position) : Prop := 0 ≤ p.Row ∧ p.Row ≤ 7 ∧ 0 ≤ p.Col ∧ p.Col ≤ 7

instance (p : Position) : Decidable (inRange p) := by unfold inRange; infer_instance

/-- Spec §4.1: every square strictly between source and destination of a
straight-line move is empty. -/
def specBetweenEmpty (b : Board) (f t : Position) : Prop :=
  ∀ k : ℕ, k < (max (absI (t.Row - f.Row)) (absI (t.Col - f.Col))).toNat → 1 ≤ k →
    (b.cell (f.Row + k * stepSign (t.Row - f.Row))
            (f.Col + k * stepSign (t.Col - f.Col))).kind = PieceType.Empty

instance (b : Board) (f t : Position) : Decidable (specBetweenEmpty b f t) := by
  unfold specBetweenEmpty; infer_instance

/-- Spec §4.1, pawn rule: one forward onto empty; two from the start rank
with middle and destination empty; one diagonally forward onto an enemy
piece or onto the en-passant target square. -/
def specPawnRule (b : Board) (m : Move) (c : Color) : Prop :=
  let dir : ℤ := if c = Color.Black then 1 else -1
  let start : ℤ := if c = Color.Black then 1 else 6
  let dr := m.To.Row - m.From.Row
  let dc := m.To.Col - m.From.Col
  (dc = 0 ∧ dr = dir ∧ (b.cell m.To.Row m.To.Col).kind = PieceType.Empty) ∨
  (dc = 0 ∧ dr = 2 * dir ∧ m.From.Row = start ∧
    (b.cell (m.From.Row + dir) m.From.Col).kind = PieceType.Empty ∧
    (b.cell m.To.Row m.To.Col).kind = PieceType.Empty) ∨
  (absI dc = 1 ∧ dr = dir ∧
    (((b.cell m.To.Row m.To.Col).kind ≠ PieceType.Empty ∧
      (b.cell m.To.Row m.To.Col).color ≠ c) ∨
     b.EnPassantTarget = some m.To))

/-- Spec §4.1, knight rule: the 8 L-shaped offsets. -/
def specKnightRule (m : Move) : Prop :=
  (absI (m.To.Row - m.From.Row) = 2 ∧ absI (m.To.Col - m.From.Col) = 1) ∨
  (absI (m.To.Row - m.From.Row) = 1 ∧ absI (m.To.Col - m.From.Col) = 2)

/-- Spec §4.1, bishop rule: diagonal with clear interior. -/
def specBishopRule (b : Board) (m : Move) : Prop :=
  absI (m.To.Row - m.From.Row) = absI (m.To.Col - m.From.Col) ∧
  specBetweenEmpty b m.From m.To

/-- Spec §4.1, rook rule: orthogonal with clear interior. -/
def specRookRule (b : Board) (m : Move) : Prop :=
  (m.From.Row = m.To.Row ∨ m.From.Col = m.To.Col) ∧ specBetweenEmpty b m.From m.To

/-- Spec §4.1, queen rule: bishop or rook. -/
def specQueenRule (b : Board) (m : Move) : Prop :=
  specBishopRule b m ∨ specRookRule b m

/-- Spec §4.1, castling: king never moved, relevant rook never moved (and in
place, which the code additionally requires), interior empty, king's start
square not attacked, both transit squares (middle and destination) not
attacked by the opponent. -/
def specCastleRule (b : Board) (m : Move) (c : Color) : Prop :=
  let rookCol : ℤ := if m.From.Col < m.To.Col then 7 else 0
  let step : ℤ := if m.To.Col < m.From.Col then -1 else 1
  (if c = Color.White then b.WhiteKingMoved = false else b.BlackKingMoved = false) ∧
  (if c = Color.White then
    (if m.From.Col < m.To.Col then b.WhiteRookHMoved = false else b.WhiteRookAMoved = false)
   else
    (if m.From.Col < m.To.Col then b.BlackRookHMoved = false else b.BlackRookAMoved = false)) ∧
  b.cell m.From.Row rookCol = ⟨PieceType.Rook, c⟩ ∧
  (∀ col : ℤ, min m.From.Col rookCol < col → col < max m.From.Col rookCol →
    (b.cell m.From.Row col).kind = PieceType.Empty) ∧
  isSquareUnderAttack b m.From (opponentOf c) = false ∧
  isSquareUnderAttack b ⟨m.From.Row, m.From.Col + step⟩ (opponentOf c) = false ∧
  isSquareUnderAttack b m.To (opponentOf c) = false

/-- Spec §4.1, king rule: one square any direction, or the castling move. -/
def specKingRule (b : Board) (m : Move) (c : Color) : Prop :=
  (absI (m.To.Row - m.From.Row) ≤ 1 ∧ absI (m.To.Col - m.From.Col) ≤ 1) ∨
  (absI (m.To.Row - m.From.Row) = 0 ∧ absI (m.To.Col - m.From.Col) = 2 ∧
    specCastleRule b m c)

/-- Spec §4.1: dispatch of the per-piece movement rule. -/
def specPieceRule (b : Board) (m : Move) (p : Piece) : Prop :=
  match p.kind with
  | PieceType.Pawn => specPawnRule b m p.color
  | PieceType.Knight => specKnightRule m
  | PieceType.Bishop => specBishopRule b m
  | PieceType.Rook => specRookRule b m
  | PieceType.Queen => specQueenRule b m
  | PieceType.King => specKingRule b m p.color
  | PieceType.Empty => False

/-- Spec §4.1 `is_legal`, amended per the code's check simulation: both
squares in range, source occupied by a piece of the side to move,
destination not a same-color piece, the piece-specific rule holds, and the
bare relocation of the piece (the code's `wouldBeInCheck` simulation, which
performs neither en-passant pawn removal nor rook relocation) does not
leave the mover's own king in check. -/
def SpecLegal (b : Board) (m : Move) : Prop :=
  inRange m.From ∧ inRange m.To ∧
  (b.cell m.From.Row m.From.Col).kind ≠ PieceType.Empty ∧
  (b.cell m.From.Row m.From.Col).color = b.CurrentTurn ∧
  ¬ ((b.cell m.To.Row m.To.Col).kind ≠ PieceType.Empty ∧
     (b.cell m.To.Row m.To.Col).color = (b.cell m.From.Row m.From.Col).color) ∧
  specPieceRule b m (b.cell m.From.Row m.From.Col) ∧
  wouldBeInCheck b m (b.cell m.From.Row m.From.Col).color = false

/-! ## Neural network (source: package `neural`). Sizes are the source's
768 → 256 → 128 → 1; weight matrices are total functions on indices, only
indices below the layer sizes are ever read. `Weights3` is `[][]float64` of
shape 128×1 in Go; the constant second index 0 is elided, and the length-1
`Bias3` is a scalar. -/

/-- An activation function together with its derivative. Go's `tanh` /
`tanhDerivative` (not rational functions) are abstracted as this parameter;
theorems quantify over it. -/
structure Act where
  toFun : ℚ → ℚ
  deriv : ℚ → ℚ

/-- Network parameters, momentum accumulators and hyperparameters
(source: `neural.Network`). -/
structure Network where
  Weights1 : ℕ → ℕ → ℚ
  Bias1 : ℕ → ℚ
  Weights2 : ℕ → ℕ → ℚ
  Bias2 : ℕ → ℚ
  Weights3 : ℕ → ℚ
  Bias3 : ℚ
  VWeights1 : ℕ → ℕ → ℚ
  VBias1 : ℕ → ℚ
  VWeights2 : ℕ → ℕ → ℚ
  VBias2 : ℕ → ℚ
  VWeights3 : ℕ → ℚ
  VBias3 : ℚ
  LearningRate : ℚ
  Momentum : ℚ

/-- Sum of `f 0 + f 1 + ⋯ + f (n-1)` (the accumulation loops of `Forward`
and `Train`). -/
def sumTo (f : ℕ → ℚ) : ℕ → ℚ
  | 0 => 0
  | n + 1 => sumTo f n + f n

/-- Source: `relu`. -/
def relu (x : ℚ) : ℚ := if 0 < x then x else 0

/-- First-hidden-layer activation (the `hidden1` array of `Forward`/`Train`,
as a function of the index). -/
def hidden1 (n : Network) (input : ℕ → ℚ) (i : ℕ) : ℚ :=
  relu (n.Bias1 i + sumTo (fun j => input j * n.Weights1 j i) 768)

/-- Second-hidden-layer activation (the `hidden2` array). -/
def hidden2 (n : Network) (input : ℕ → ℚ) (i : ℕ) : ℚ :=
  relu (n.Bias2 i + sumTo (fun j => hidden1 n input j * n.Weights2 j i) 256)

/-- Output-layer pre-activation (the final `sum` of `Forward`/`Train`). -/
def outSum (n : Network) (input : ℕ → ℚ) : ℚ :=
  n.Bias3 + sumTo (fun j => hidden2 n input j * n.Weights3 j) 128

/-- Source: `Network.Forward`. -/
def Forward (act : Act) (n : Network) (input : ℕ → ℚ) : ℚ :=
  act.toFun (outSum n input)

/-- Source: `Network.Train` (single-example gradient step with momentum).
Mutation order is the source's: the output layer is updated first, and the
second-hidden-layer error is then computed from the **already updated**
`Weights3`; likewise the first-hidden-layer error uses the already updated
`Weights2`. -/
def Train (act : Act) (n : Network) (input : ℕ → ℚ) (target : ℚ) : Network :=
  let s := outSum n input
  let output := act.toFun s
  let outputDelta := (target - output) * act.deriv s
  let vw3 : ℕ → ℚ := fun j =>
    n.Momentum * n.VWeights3 j + n.LearningRate * (outputDelta * hidden2 n input j)
  let w3 : ℕ → ℚ := fun j => n.Weights3 j + vw3 j
  let vb3 : ℚ := n.Momentum * n.VBias3 + n.LearningRate * outputDelta
  let b3 : ℚ := n.Bias3 + vb3
  let h2err : ℕ → ℚ := fun i => if hidden2 n input i ≤ 0 then 0 else outputDelta * w3 i
  let vw2 : ℕ → ℕ → ℚ := fun i j =>
    n.Momentum * n.VWeights2 i j + n.LearningRate * (h2err j * hidden1 n input i)
  let w2 : ℕ → ℕ → ℚ := fun i j => n.Weights2 i j + vw2 i j
  let vb2 : ℕ → ℚ := fun j => n.Momentum * n.VBias2 j + n.LearningRate * h2err j
  let b2 : ℕ → ℚ := fun j => n.Bias2 j + vb2 j
  let h1err : ℕ → ℚ := fun i =>
    if hidden1 n input i ≤ 0 then 0 else sumTo (fun j => h2err j * w2 i j) 128
  let vw1 : ℕ → ℕ → ℚ := fun i j =>
    n.Momentum * n.VWeights1 i j + n.LearningRate * (h1err j * input i)
  let w1 : ℕ → ℕ → ℚ := fun i j => n.Weights1 i j + vw1 i j
  let vb1 : ℕ → ℚ := fun j => n.Momentum * n.VBias1 j + n.LearningRate * h1err j
  let b1 : ℕ → ℚ := fun j => n.Bias1 j + vb1 j
  { Weights1 := w1, Bias1 := b1, Weights2 := w2, Bias2 := b2, Weights3 := w3, Bias3 := b3,
    VWeights1 := vw1, VBias1 := vb1, VWeights2 := vw2, VBias2 := vb2,
    VWeights3 := vw3, VBias3 := vb3,
    LearningRate := n.LearningRate, Momentum := n.Momentum }

/-- Modelled from the claim's words (C6): the same gradient step, but with
every layer's gradient computed with respect to the weights the network held
at the start of the call (`n.Weights3` / `n.Weights2` instead of the already
updated ones). Used only as the comparison point for C6. -/
def TrainSpec (act : Act) (n : Network) (input : ℕ → ℚ) (target : ℚ) : Network :=
  let s := outSum n input
  let output := act.toFun s
  let outputDelta := (target - output) * act.deriv s
  let vw3 : ℕ → ℚ := fun j =>
    n.Momentum * n.VWeights3 j + n.LearningRate * (outputDelta * hidden2 n input j)
  let w3 : ℕ → ℚ := fun j => n.Weights3 j + vw3 j
  let vb3 : ℚ := n.Momentum * n.VBias3 + n.LearningRate * outputDelta
  let b3 : ℚ := n.Bias3 + vb3
  let h2err : ℕ → ℚ := fun i => if hidden2 n input i ≤ 0 then 0 else outputDelta * n.Weights3 i
  let vw2 : ℕ → ℕ → ℚ := fun i j =>
    n.Momentum * n.VWeights2 i j + n.LearningRate * (h2err j * hidden1 n input i)
  let w2 : ℕ → ℕ → ℚ := fun i j => n.Weights2 i j + vw2 i j
  let vb2 : ℕ → ℚ := fun j => n.Momentum * n.VBias2 j + n.LearningRate * h2err j
  let b2 : ℕ → ℚ := fun j => n.Bias2 j + vb2 j
  let h1err : ℕ → ℚ := fun i =>
    if hidden1 n input i ≤ 0 then 0 else sumTo (fun j => h2err j * n.Weights2 i j) 128
  let vw1 : ℕ → ℕ → ℚ := fun i j =>
    n.Momentum * n.VWeights1 i j + n.LearningRate * (h1err j * input i)
  let w1 : ℕ → ℕ → ℚ := fun i j => n.Weights1 i j + vw1 i j
  let vb1 : ℕ → ℚ := fun j => n.Momentum * n.VBias1 j + n.LearningRate * h1err j
  let b1 : ℕ → ℚ := fun j => n.Bias1 j + vb1 j
  { Weights1 := w1, Bias1 := b1, Weights2 := w2, Bias2 := b2, Weights3 := w3, Bias3 := b3,
    VWeights1 := vw1, VBias1 := vb1, VWeights2 := vw2, VBias2 := vb2,
    VWeights3 := vw3, VBias3 := vb3,
    LearningRate := n.LearningRate, Momentum := n.Momentum }

/-! ## Agent (source: package `agent`). Randomness (`rand.Float64`,
`rand.Intn`) is modelled by explicit parameters: a draw `randVal` and index
draws reduced modulo the list length. -/

/-- Source: `agent.Agent`. The `Network` field is a reference to the shared
network in Go; here the network value is threaded explicitly. -/
structure Agent where
  Network : Network
  color : Color
  Epsilon : ℚ
  Gamma : ℚ
  StateHistory : List (ℕ → ℚ)
  RewardHistory : List ℚ

/-- Bitplane encoding (source: `boardToVector`): 12 planes of 64 squares,
plane-major then row-major then column-major; plane `p` holds kind
`[Pawn, Knight, Bishop, Rook, Queen, King][p % 6]` and color White for
planes 0–5, Black for planes 6–11. -/
def boardToVector (b : Board) (idx : ℕ) : ℚ :=
  if idx < 768 then
    let planeIdx := idx / 64
    let row : ℤ := ((idx % 64) / 8 : ℕ)
    let col : ℤ := (idx % 8 : ℕ)
    let kinds := [PieceType.Pawn, PieceType.Knight, PieceType.Bishop,
                  PieceType.Rook, PieceType.Queen, PieceType.King]
    let kind := kinds.getD (planeIdx % 6) PieceType.Pawn
    let color := if 6 ≤ planeIdx then Color.Black else Color.White
    let piece := b.cell row col
    if piece.kind = kind ∧ piece.color = color then 1 else 0
  else 0

/-- Source: `Agent.RecordState`. -/
def RecordState (a : Agent) (b : Board) : Agent :=
  { a with StateHistory := a.StateHistory ++ [boardToVector b] }

/-- The epsilon decay with floor, as written inline in `Agent.Learn` and in
`trainSharedNetwork`: multiply by 0.995, clamp below at 0.01. -/
def epsStep (e : ℚ) : ℚ :=
  let e2 := e * (995 / 1000)
  if e2 < 1 / 100 then 1 / 100 else e2

/-- The descending-index training loop of `Agent.Learn`
(`for i := len-1; i >= 0; i--`), applied to the reversed history: each state
is trained toward the current reward, which is then multiplied by gamma for
the next (earlier) state. -/
def trainBackward (act : Act) (gamma : ℚ) :
    Network → List (ℕ → ℚ) → ℚ → Network
  | net, [], _ => net
  | net, s :: rest, reward => trainBackward act gamma (Train act net s reward) rest (reward * gamma)

/-- Source: `Agent.Learn`. Empty history returns immediately; otherwise the
network is trained backward over the history and epsilon decays. -/
def Learn (act : Act) (a : Agent) (finalReward : ℚ) : Agent :=
  if a.StateHistory.isEmpty then a
  else
    { a with
      Network := trainBackward act a.Gamma a.Network a.StateHistory.reverse finalReward,
      Epsilon := epsStep a.Epsilon }

/-- Source: `Agent.evaluatePosition`. -/
def evaluatePosition (act : Act) (a : Agent) (b : Board) : ℚ :=
  Forward act a.Network (boardToVector b)

/-- `math.MaxFloat64` as an exact rational. -/
def maxFloat : ℚ := (2 ^ 53 - 1) * 2 ^ 971

/-- The no-result sentinel of `minimax`
(`game.Move{From: game.Position{-1, -1}}`; the remaining fields are Go zero
values). -/
def sentinelMove : Move := ⟨⟨-1, -1⟩, ⟨0, 0⟩⟩

/-- The Go zero value `game.Move{}`, returned by `ChooseMove` when there are
no legal moves. -/
def zeroMove : Move := ⟨⟨0, 0⟩, ⟨0, 0⟩⟩

/-- Maximizing loop of `minimax` (alpha-beta, `break` modelled by returning
early); `recur` is the depth-decreased minimizing call. -/
def maxLoop (recur : Board → ℚ → ℚ → ℚ) (b : Board) :
    List Move → ℚ → ℚ → ℚ → Move → ℚ × Move
  | [], _, _, maxEval, best => (maxEval, best)
  | mv :: rest, alpha, beta, maxEval, best =>
    let bc := MakeMove b mv
    let ev := recur bc alpha beta
    let maxEval2 := if maxEval < ev then ev else maxEval
    let best2 := if maxEval < ev then mv else best
    let alpha2 := max alpha ev
    if beta ≤ alpha2 then (maxEval2, best2)
    else maxLoop recur b rest alpha2 beta maxEval2 best2

/-- Minimizing loop of `minimax`. -/
def minLoop (recur : Board → ℚ → ℚ → ℚ) (b : Board) :
    List Move → ℚ → ℚ → ℚ → Move → ℚ × Move
  | [], _, _, minEval, best => (minEval, best)
  | mv :: rest, alpha, beta, minEval, best =>
    let bc := MakeMove b mv
    let ev := recur bc alpha beta
    let minEval2 := if ev < minEval then ev else minEval
    let best2 := if ev < minEval then mv else best
    let beta2 := min beta ev
    if beta2 ≤ alpha then (minEval2, best2)
    else minLoop recur b rest alpha beta2 minEval2 best2

/-- Source: `Agent.minimax` (depth-limited alpha-beta; the search explores
clones, which are plain values here). -/
def minimax (act : Act) (a : Agent) : ℕ → Board → ℚ → ℚ → Bool → ℚ × Move
  | 0, b, _, _, _ => (evaluatePosition act a b, sentinelMove)
  | depth + 1, b, alpha, beta, maximizing =>
    if b.GameOver then (evaluatePosition act a b, sentinelMove)
    else
      let moves := GetLegalMoves b
      if moves = [] then (evaluatePosition act a b, sentinelMove)
      else if maximizing then
        maxLoop (fun bc al be => (minimax act a depth bc al be false).1)
          b moves alpha beta (-maxFloat) sentinelMove
      else
        minLoop (fun bc al be => (minimax act a depth bc al be true).1)
          b moves alpha beta maxFloat sentinelMove

/-- Source: `Agent.ChooseMove` (epsilon-greedy; random draws are explicit
parameters: `randVal` models `rand.Float64()`, and `randIdx`/`randIdx2`
model the two possible `rand.Intn(len(moves))` draws). -/
def ChooseMove (act : Act) (a : Agent) (b : Board)
    (randVal : ℚ) (randIdx randIdx2 : ℕ) : Move :=
  let moves := GetLegalMoves b
  if moves = [] then zeroMove
  else if randVal < a.Epsilon then moves.getD (randIdx % moves.length) zeroMove
  else
    let best := (minimax act a 2 b (-maxFloat) maxFloat true).2
    if best.From.Row = -1 then moves.getD (randIdx2 % moves.length) zeroMove
    else best

/-! ## Self-play orchestrator (source: package `selfplay`, the revision with
`trainSharedNetwork`). In Go both agents alias one `Network`; training goes
through `m.whiteAgent.Network`, and the model reflects the aliasing by
storing the updated network in both agents. -/

/-- Source: `selfplay.SelfPlayManager`. -/
structure SelfPlayManager where
  whiteAgent : Agent
  blackAgent : Agent
  gamesCount : ℤ

/-- The experience-collection loop of `trainSharedNetwork`: a descending
walk over a history (given here reversed) pairing each state with the
progressively discounted reward. -/
def revDiscount (gamma : ℚ) : List (ℕ → ℚ) → ℚ → List ((ℕ → ℚ) × ℚ)
  | [], _ => []
  | s :: rest, reward => (s, reward) :: revDiscount gamma rest (reward * gamma)

/-- Source: `SelfPlayManager.trainSharedNetwork`: collect both agents'
discounted experiences (white first), train the shared network on all of
them in order, then decay both agents' epsilons unconditionally. -/
def trainSharedNetwork (act : Act) (m : SelfPlayManager)
    (whiteReward blackReward : ℚ) : SelfPlayManager :=
  let whiteExp := revDiscount m.whiteAgent.Gamma m.whiteAgent.StateHistory.reverse whiteReward
  let blackExp := revDiscount m.blackAgent.Gamma m.blackAgent.StateHistory.reverse blackReward
  let allExp := whiteExp ++ blackExp
  let net := allExp.foldl (fun n e => Train act n e.1 e.2) m.whiteAgent.Network
  { m with
    whiteAgent := { m.whiteAgent with Network := net, Epsilon := epsStep m.whiteAgent.Epsilon }
    blackAgent := { m.blackAgent with Network := net, Epsilon := epsStep m.blackAgent.Epsilon } }

/-! ## Concrete instances used in counterexamples and witnesses. -/

/-- A rank of eight empty squares. -/
def emptyRow : List Piece := List.replicate 8 emptyPiece

/-- Position with the white pawn e5 and black pawn d5 after Black's
d7–d5 double advance (en-passant target d6), a black rook on a5 pinning the
white e5 pawn horizontally against the white king on h5: the en-passant
capture e5×d6 opens the rank and leaves White's king attacked. Rows: black
king e8; rook a5, black pawn d5, white pawn e5, white king h5. -/
def epPinBoard : Board :=
  { Cells := [
      emptyRow.set 4 ⟨PieceType.King, Color.Black⟩,
      emptyRow, emptyRow,
      ((((emptyRow.set 0 ⟨PieceType.Rook, Color.Black⟩).set 3 ⟨PieceType.Pawn, Color.Black⟩).set 4
          ⟨PieceType.Pawn, Color.White⟩).set 7 ⟨PieceType.King, Color.White⟩),
      emptyRow, emptyRow, emptyRow, emptyRow]
    CurrentTurn := Color.White, GameOver := false, Winner := Color.White, IsCheck := false
    EnPassantTarget := some ⟨2, 3⟩
    WhiteKingMoved := true, BlackKingMoved := true
    WhiteRookAMoved := false, WhiteRookHMoved := false
    BlackRookAMoved := false, BlackRookHMoved := false
    MovesCount := 10 }

/-- The en-passant capture e5×d6 on `epPinBoard`. -/
def epPinMove : Move := ⟨⟨3, 4⟩, ⟨2, 3⟩⟩

/-- Position with White to move: queen b3, king h1 against the lone black
king a8. The queen move b3–b6 stalemates Black. -/
def staleBoard : Board :=
  { Cells := [
      emptyRow.set 0 ⟨PieceType.King, Color.Black⟩,
      emptyRow, emptyRow, emptyRow, emptyRow,
      emptyRow.set 1 ⟨PieceType.Queen, Color.White⟩,
      emptyRow,
      emptyRow.set 7 ⟨PieceType.King, Color.White⟩]
    CurrentTurn := Color.White, GameOver := false, Winner := Color.Black, IsCheck := false
    EnPassantTarget := none
    WhiteKingMoved := true, BlackKingMoved := true
    WhiteRookAMoved := true, WhiteRookHMoved := true
    BlackRookAMoved := true, BlackRookHMoved := true
    MovesCount := 40 }

/-- The stalemating queen move b3–b6. -/
def staleMove : Move := ⟨⟨5, 1⟩, ⟨2, 1⟩⟩

/-- Position where White may castle kingside: king e1, rook h1, lone black
king e8, nothing moved. -/
def castleBoard : Board :=
  { Cells := [
      emptyRow.set 4 ⟨PieceType.King, Color.Black⟩,
      emptyRow, emptyRow, emptyRow, emptyRow, emptyRow, emptyRow,
      (emptyRow.set 4 ⟨PieceType.King, Color.White⟩).set 7 ⟨PieceType.Rook, Color.White⟩]
    CurrentTurn := Color.White, GameOver := false, Winner := Color.White, IsCheck := false
    EnPassantTarget := none
    WhiteKingMoved := false, BlackKingMoved := false
    WhiteRookAMoved := false, WhiteRookHMoved := false
    BlackRookAMoved := false, BlackRookHMoved := false
    MovesCount := 8 }

/-- White's kingside castling move e1–g1. -/
def castleMove : Move := ⟨⟨7, 4⟩, ⟨7, 6⟩⟩

/-- Position used for the en-passant one-ply demonstration: white pawn e2
and king e1, black pawn d4 and king e8, White to move (kings marked moved so
castling plays no role). -/
def epDemoBoard : Board :=
  { Cells := [
      emptyRow.set 4 ⟨PieceType.King, Color.Black⟩,
      emptyRow, emptyRow, emptyRow,
      emptyRow.set 3 ⟨PieceType.Pawn, Color.Black⟩,
      emptyRow,
      emptyRow.set 4 ⟨PieceType.Pawn, Color.White⟩,
      emptyRow.set 4 ⟨PieceType.King, Color.White⟩]
    CurrentTurn := Color.White, GameOver := false, Winner := Color.White, IsCheck := false
    EnPassantTarget := none
    WhiteKingMoved := true, BlackKingMoved := true
    WhiteRookAMoved := true, WhiteRookHMoved := true
    BlackRookAMoved := true, BlackRookHMoved := true
    MovesCount := 6 }

/-- The double advance e2–e4 on `epDemoBoard`. -/
def epDemoDouble : Move := ⟨⟨6, 4⟩, ⟨4, 4⟩⟩

/-- The en-passant reply d4×e3 on `epDemoBoard` after the double advance. -/
def epDemoCapture : Move := ⟨⟨4, 3⟩, ⟨5, 4⟩⟩

/-- An activation pair used at concrete inputs. The only argument at which
counterexamples below evaluate it is `0`, where it agrees with `math.Tanh`
and its derivative exactly (`tanh 0 = 0`, `tanh' 0 = 1`). -/
def act0 : Act := ⟨fun _ => 0, fun _ => 1⟩

/-- A network with all parameters zero and the hyperparameters `NewNetwork`
sets (learning rate 0.001, momentum 0.9). -/
def zeroNet : Network :=
  { Weights1 := fun _ _ => 0, Bias1 := fun _ => 0
    Weights2 := fun _ _ => 0, Bias2 := fun _ => 0
    Weights3 := fun _ => 0, Bias3 := 0
    VWeights1 := fun _ _ => 0, VBias1 := fun _ => 0
    VWeights2 := fun _ _ => 0, VBias2 := fun _ => 0
    VWeights3 := fun _ => 0, VBias3 := 0
    LearningRate := 1 / 1000, Momentum := 9 / 10 }

/-- `zeroNet` with the first second-hidden-layer bias set to 1, so that the
second hidden layer has one active unit. -/
def net0 : Network := { zeroNet with Bias2 := fun j => if j = 0 then 1 else 0 }

/-- The all-zero input vector. -/
def x0 : ℕ → ℚ := fun _ => 0

/-- An agent as `NewAgent` initializes it (epsilon 0.1, gamma 0.99), holding
the zero network and a one-state history. -/
def a0 : Agent :=
  { Network := zeroNet, color := Color.White, Epsilon := 1 / 10, Gamma := 99 / 100
    StateHistory := [x0], RewardHistory := [] }

/-- An agent with an empty state history. -/
def aEmpty : Agent :=
  { Network := zeroNet, color := Color.Black, Epsilon := 1 / 10, Gamma := 99 / 100
    StateHistory := [], RewardHistory := [] }

/-- A self-play manager whose two agents both have empty histories. -/
def m0 : SelfPlayManager :=
  { whiteAgent := { aEmpty with color := Color.White }
    blackAgent := aEmpty
    gamesCount := 0 }

/-! ## Supporting lemmas: learning update and epsilon decay. -/

theorem isEmpty_eq_false_of_ne_nil {α : Type} {l : List α} (h : l ≠ []) :
    l.isEmpty = false := by
  cases l with
  | nil => exact absurd rfl h
  | cons a t => rfl

theorem Learn_of_ne_nil (act : Act) (a : Agent) (r : ℚ) (h : a.StateHistory ≠ []) :
    Learn act a r =
      { a with
        Network := trainBackward act a.Gamma a.Network a.StateHistory.reverse r,
        Epsilon := epsStep a.Epsilon } := by
  unfold Learn
  rw [isEmpty_eq_false_of_ne_nil h]
  rfl

theorem Learn_StateHistory (act : Act) (a : Agent) (r : ℚ) :
    (Learn act a r).StateHistory = a.StateHistory := by
  unfold Learn
  cases h : a.StateHistory.isEmpty <;> rfl

theorem Learn_Epsilon (act : Act) (a : Agent) (r : ℚ) (h : a.StateHistory ≠ []) :
    (Learn act a r).Epsilon = epsStep a.Epsilon := by
  rw [Learn_of_ne_nil act a r h]

theorem iterate_Learn_Epsilon (act : Act) (r : ℚ) :
    ∀ (n : ℕ) (a : Agent), a.StateHistory ≠ [] →
      ((fun x => Learn act x r)^[n] a).Epsilon = epsStep^[n] a.Epsilon := by
  intro n
  induction n with
  | zero => intro a _; rfl
  | succ k ih =>
    intro a h
    rw [Function.iterate_succ_apply, Function.iterate_succ_apply]
    have hh : (Learn act a r).StateHistory ≠ [] := by
      rw [Learn_StateHistory]; exact h
    rw [ih (Learn act a r) hh, Learn_Epsilon act a r h]

theorem epsStep_lt_of_gt_floor {e : ℚ} (h : 1 / 100 < e) : epsStep e < e := by
  have he : (0 : ℚ) < e := lt_trans (by norm_num) h
  simp only [epsStep]
  split
  · linarith
  · nlinarith

theorem epsStep_floor_fixed : epsStep (1 / 100) = 1 / 100 := by
  norm_num [epsStep]

theorem iterate_epsStep_floor : ∀ n : ℕ, epsStep^[n] (1 / 100) = 1 / 100 := by
  intro n
  exact Function.iterate_fixed epsStep_floor_fixed n

theorem floor_le_decay_459 : (1 : ℚ) / 100 ≤ (1 / 10) * (199 / 200) ^ 459 := by
  norm_num

theorem iterate_epsStep_formula :
    ∀ n : ℕ, n ≤ 459 → epsStep^[n] (1 / 10) = (1 / 10) * (199 / 200) ^ n := by
  intro n
  induction n with
  | zero => intro _; simp
  | succ k ih =>
    intro h
    rw [Function.iterate_succ_apply', ih (by omega)]
    have hmono : ((199 : ℚ) / 200) ^ 459 ≤ (199 / 200) ^ (k + 1) :=
      pow_le_pow_of_le_one (by norm_num) (by norm_num) (by omega)
    have hfloor : (1 : ℚ) / 100 ≤ (1 / 10) * (199 / 200) ^ (k + 1) := by
      have := floor_le_decay_459
      nlinarith
    have harith : (1 / 10) * ((199 : ℚ) / 200) ^ k * (995 / 1000) =
        (1 / 10) * (199 / 200) ^ (k + 1) := by
      rw [pow_succ]; ring_nf
    simp only [epsStep, harith]
    rw [if_neg (by linarith)]

theorem iterate_epsStep_460 : epsStep^[460] (1 / 10) = 1 / 100 := by
  rw [show (460 : ℕ) = 459 + 1 by rfl, Function.iterate_succ_apply',
    iterate_epsStep_formula 459 le_rfl]
  have hlt : (1 / 10) * ((199 : ℚ) / 200) ^ 459 * (995 / 1000) < 1 / 100 := by
    have harith : (1 / 10) * ((199 : ℚ) / 200) ^ 459 * (995 / 1000) =
        (1 / 10) * (199 / 200) ^ 460 := by
      rw [pow_succ]; ring_nf
    rw [harith]
    norm_num
  simp only [epsStep]
  rw [if_pos hlt]

theorem iterate_epsStep_reaches_floor {n : ℕ} (h : 460 ≤ n) :
    epsStep^[n] (1 / 10) = 1 / 100 := by
  have : n = (n - 460) + 460 := by omega
  rw [this, Function.iterate_add_apply, iterate_epsStep_460, iterate_epsStep_floor]

theorem trainBackward_eq_foldl (act : Act) (gamma : ℚ) :
    ∀ (l : List (ℕ → ℚ)) (net : Network) (r : ℚ),
      trainBackward act gamma net l r =
        (l.zip ((List.range l.length).map fun k => r * gamma ^ k)).foldl
          (fun n p => Train act n p.1 p.2) net := by
  intro l
  induction l with
  | nil => intro net r; rfl
  | cons s rest ih =>
    intro net r
    have hmap : (List.range (s :: rest).length).map (fun k => r * gamma ^ k) =
        (r * gamma ^ (0 : ℕ)) :: (List.range rest.length).map fun k => (r * gamma) * gamma ^ k := by
      rw [List.length_cons, List.range_succ_eq_map, List.map_cons, List.map_map]
      congr 1
      apply List.map_congr_left
      intro k _
      simp [Function.comp, pow_succ]
      ring
    rw [hmap]
    simp only [List.zip_cons_cons, List.foldl_cons, pow_zero, mul_one]
    exact ih (Train act net s r) (r * gamma)

/-! ## Claim theorems: learning update (C5, C7, C8). -/

/-- C5: `Learn` with a non-empty recorded history of length `n` performs
exactly one gradient step per recorded state, walking from the most recent
state to the earliest, the state at distance `k` from the end being trained
toward `r · gamma^k` — i.e. the updated network is exactly the fold of
`Train` over the reversed history zipped with those targets — and performs
no other training steps; the history itself is not consumed by the call. -/
theorem c5_learn_discounted_steps (act : Act) (a : Agent) (r : ℚ)
    (h : a.StateHistory ≠ []) :
    (Learn act a r).Network =
      (a.StateHistory.reverse.zip
        ((List.range a.StateHistory.length).map fun k => r * a.Gamma ^ k)).foldl
        (fun n p => Train act n p.1 p.2) a.Network ∧
    (Learn act a r).StateHistory = a.StateHistory := by
  constructor
  · rw [Learn_of_ne_nil act a r h]
    have := trainBackward_eq_foldl act a.Gamma a.StateHistory.reverse a.Network r
    rw [List.length_reverse] at this
    exact this
  · exact Learn_StateHistory act a r

/-- Witness for C5 at a concrete one-state history. -/
theorem c5_witness :
    a0.StateHistory ≠ [] ∧
    ((Learn act0 a0 1).Network =
      (a0.StateHistory.reverse.zip
        ((List.range a0.StateHistory.length).map fun k => 1 * a0.Gamma ^ k)).foldl
        (fun n p => Train act0 n p.1 p.2) a0.Network ∧
     (Learn act0 a0 1).StateHistory = a0.StateHistory) :=
  ⟨by simp [a0], c5_learn_discounted_steps act0 a0 1 (by simp [a0])⟩

/-- C7 (amended): after one `Learn` call with non-empty history, epsilon
strictly decreases when above the floor 0.01 and stays at the floor when
already there; and starting from the initial epsilon 0.1, epsilon reaches
the floor exactly after **460** such calls (not 100, as claimed: the
counterexample shows 100 calls leave it at 0.1·0.995¹⁰⁰ ≈ 0.0606). -/
theorem c7_amended_epsilon (act : Act) (a : Agent) (r : ℚ)
    (h : a.StateHistory ≠ []) :
    ((1 / 100 < a.Epsilon → (Learn act a r).Epsilon < a.Epsilon) ∧
     (a.Epsilon = 1 / 100 → (Learn act a r).Epsilon = 1 / 100)) ∧
    (∀ n : ℕ, 460 ≤ n → a.Epsilon = 1 / 10 →
      ((fun x => Learn act x r)^[n] a).Epsilon = 1 / 100) := by
  constructor
  · constructor
    · intro hgt
      rw [Learn_Epsilon act a r h]
      exact epsStep_lt_of_gt_floor hgt
    · intro heq
      rw [Learn_Epsilon act a r h, heq, epsStep_floor_fixed]
  · intro n hn heps
    rw [iterate_Learn_Epsilon act r n a h, heps]
    exact iterate_epsStep_reaches_floor hn

/-- Witness for C7 (amended) at a concrete agent with epsilon 0.1. -/
theorem c7_witness :
    a0.StateHistory ≠ [] ∧ 1 / 100 < a0.Epsilon ∧
    (Learn act0 a0 1).Epsilon < a0.Epsilon ∧
    ((fun x => Learn act0 x 1)^[460] a0).Epsilon = 1 / 100 :=
  ⟨by simp [a0], by norm_num [a0],
   (c7_amended_epsilon act0 a0 1 (by simp [a0])).1.1 (by norm_num [a0]),
   (c7_amended_epsilon act0 a0 1 (by simp [a0])).2 460 le_rfl (by norm_num [a0])⟩

/-- C7 counterexample: 100 `Learn(1.0)` calls with non-empty history,
starting from the initial epsilon 0.1, do **not** bring epsilon to the
floor 0.01 (it is 0.1·0.995¹⁰⁰ ≈ 0.0606), refuting "after at least 100 such
calls starting from the initial epsilon, epsilon equals the floor 0.01". -/
theorem c7_counterexample :
    ((fun x => Learn act0 x 1)^[100] a0).Epsilon ≠ 1 / 100 := by
  rw [iterate_Learn_Epsilon act0 1 100 a0 (by simp [a0])]
  show epsStep^[100] a0.Epsilon ≠ 1 / 100
  have ha : a0.Epsilon = 1 / 10 := rfl
  rw [ha, iterate_epsStep_formula 100 (by omega)]
  norm_num

/-- C8 (amended): `Agent.Learn` with an empty history is a complete no-op
(network, momenta and epsilon all unchanged); but the orchestrator's
`trainSharedNetwork` with both histories empty, while performing **no**
training step (the shared network is unchanged), still decays both agents'
epsilons unconditionally — so the claim's "epsilon unchanged in every call
path" fails on that path. -/
theorem c8_amended_empty_history :
    (∀ (act : Act) (a : Agent) (r : ℚ), a.StateHistory = [] → Learn act a r = a) ∧
    (∀ (act : Act) (m : SelfPlayManager) (wr br : ℚ),
      m.whiteAgent.StateHistory = [] → m.blackAgent.StateHistory = [] →
      (trainSharedNetwork act m wr br).whiteAgent.Network = m.whiteAgent.Network ∧
      (trainSharedNetwork act m wr br).blackAgent.Network = m.whiteAgent.Network ∧
      (trainSharedNetwork act m wr br).whiteAgent.Epsilon = epsStep m.whiteAgent.Epsilon ∧
      (trainSharedNetwork act m wr br).blackAgent.Epsilon = epsStep m.blackAgent.Epsilon) := by
  constructor
  · intro act a r h
    unfold Learn
    rw [h]
    rfl
  · intro act m wr br h1 h2
    unfold trainSharedNetwork
    rw [h1, h2]
    exact ⟨rfl, rfl, rfl, rfl⟩

/-- Witness for C8 (amended) at concrete empty-history agents. -/
theorem c8_witness :
    Learn act0 aEmpty 5 = aEmpty ∧
    (trainSharedNetwork act0 m0 1 0).whiteAgent.Network = m0.whiteAgent.Network ∧
    (trainSharedNetwork act0 m0 1 0).whiteAgent.Epsilon = epsStep m0.whiteAgent.Epsilon :=
  ⟨c8_amended_empty_history.1 act0 aEmpty 5 rfl,
   (c8_amended_empty_history.2 act0 m0 1 0 rfl rfl).1,
   (c8_amended_empty_history.2 act0 m0 1 0 rfl rfl).2.2.1⟩

/-- C8 counterexample: with both histories empty the orchestrator's
shared-network update still changes the white agent's epsilon
(0.1 → 0.0995), refuting "the agent's epsilon is unchanged afterward in
every call path that performs the learning update". -/
theorem c8_counterexample :
    (trainSharedNetwork act0 m0 1 0).whiteAgent.Epsilon ≠ m0.whiteAgent.Epsilon := by
  show epsStep m0.whiteAgent.Epsilon ≠ m0.whiteAgent.Epsilon
  norm_num [m0, aEmpty, epsStep]

/-! ## Supporting lemmas: en-passant bookkeeping (C9). -/

theorem setCell_EnPassantTarget (b : Board) (r c : ℤ) (p : Piece) :
    (Board.setCell b r c p).EnPassantTarget = b.EnPassantTarget := by
  unfold Board.setCell
  split <;> rfl

theorem checkGameOver_EnPassantTarget (b : Board) :
    (checkGameOver b).EnPassantTarget = b.EnPassantTarget := by
  unfold checkGameOver
  dsimp only
  split_ifs <;> rfl

theorem absI_eq_one_cases {x : ℤ} (h : absI x = 1) : x = 1 ∨ x = -1 := by
  unfold absI at h
  split at h <;> omega

set_option maxHeartbeats 1000000 in
/-- The en-passant field after `MakeMove`, fully characterized. -/
theorem MakeMove_EnPassantTarget (b : Board) (m : Move) :
    (MakeMove b m).EnPassantTarget =
      if (b.cell m.From.Row m.From.Col).kind = PieceType.Pawn ∧
          absI (m.To.Row - m.From.Row) = 2 then
        some ⟨(m.From.Row + m.To.Row) / 2, m.To.Col⟩
      else none := by
  simp only [MakeMove, checkGameOver_EnPassantTarget, setCell_EnPassantTarget,
    apply_ite Board.EnPassantTarget]
  split_ifs <;> rfl

/-- A diagonal pawn step onto an empty square is movement-valid exactly when
that square is the current en-passant target. -/
theorem pawn_diagonal_empty_iff_ep (b : Board) (m : Move) (piece : Piece)
    (hEmpty : (b.cell m.To.Row m.To.Col).kind = PieceType.Empty)
    (hCol : absI (m.To.Col - m.From.Col) = 1)
    (hRow : m.To.Row - m.From.Row = (if piece.color = Color.Black then 1 else -1)) :
    (isValidPawnMove b m piece = true ↔
      b.EnPassantTarget = some ⟨m.To.Row, m.To.Col⟩) := by
  have hCol' : m.To.Col - m.From.Col ≠ 0 := by
    rcases absI_eq_one_cases hCol with h | h <;> omega
  unfold isValidPawnMove
  dsimp only
  rw [if_neg (by tauto), if_neg (by tauto), if_pos ⟨hCol, hRow⟩]
  rw [if_neg (by simp [hEmpty])]
  cases hep : b.EnPassantTarget with
  | none => simp
  | some t =>
    simp only [decide_eq_true_eq, Option.some.injEq]
    constructor
    · rintro ⟨h1, h2⟩
      cases t
      simp_all
    · intro h
      subst h
      exact ⟨rfl, rfl⟩

/-! ## Claim theorem: en-passant invariant (C9). -/

/-- C9: every `MakeMove` rewrites the en-passant target: it is `none` unless
the moved piece is a pawn advancing two rows, in which case it is exactly
the square passed over; a diagonal pawn step onto an empty square is
movement-valid exactly when that square is the current en-passant target
(so the capture is available precisely while the target persists); and in a
concrete run, after the double advance e2–e4 the black reply d4×e3 is fully
legal on the very next ply, and no longer legal two plies later once the
target has been cleared. -/
theorem c9_en_passant :
    (∀ (b : Board) (m : Move),
      (MakeMove b m).EnPassantTarget =
        if (b.cell m.From.Row m.From.Col).kind = PieceType.Pawn ∧
            absI (m.To.Row - m.From.Row) = 2 then
          some ⟨(m.From.Row + m.To.Row) / 2, m.To.Col⟩
        else none) ∧
    (∀ (b : Board) (m : Move) (piece : Piece),
      (b.cell m.To.Row m.To.Col).kind = PieceType.Empty →
      absI (m.To.Col - m.From.Col) = 1 →
      m.To.Row - m.From.Row = (if piece.color = Color.Black then 1 else -1) →
      (isValidPawnMove b m piece = true ↔
        b.EnPassantTarget = some ⟨m.To.Row, m.To.Col⟩)) ∧
    IsValidMove (MakeMove epDemoBoard epDemoDouble) epDemoCapture = true ∧
    IsValidMove
      (MakeMove (MakeMove (MakeMove epDemoBoard epDemoDouble) ⟨⟨0, 4⟩, ⟨0, 3⟩⟩)
        ⟨⟨7, 4⟩, ⟨7, 3⟩⟩) epDemoCapture = false :=
  ⟨MakeMove_EnPassantTarget, pawn_diagonal_empty_iff_ep, by decide, by decide⟩

/-- Witness for C9 at the concrete double-advance position. -/
theorem c9_witness :
    ((MakeMove epDemoBoard epDemoDouble).cell 5 4).kind = PieceType.Empty ∧
    absI ((5 : ℤ) - 4) = 1 ∧
    (isValidPawnMove (MakeMove epDemoBoard epDemoDouble) epDemoCapture
        ⟨PieceType.Pawn, Color.Black⟩ = true ↔
      (MakeMove epDemoBoard epDemoDouble).EnPassantTarget = some ⟨5, 4⟩) :=
  ⟨by decide, by decide,
   c9_en_passant.2.1 (MakeMove epDemoBoard epDemoDouble) epDemoCapture
     ⟨PieceType.Pawn, Color.Black⟩ (by decide) (by decide) (by decide)⟩

/-! ## Supporting lemmas: the `GameOver`/`Winner` flags influence no rule
computation, so `checkGameOver` leaves legal moves and check status
untouched (C2). -/

theorem cell_flagsInv (b : Board) (g : Bool) (w : Color) :
    Board.cell { b with GameOver := g, Winner := w } = Board.cell b := rfl

theorem ep_flagsInv (b : Board) (g : Bool) (w : Color) :
    ({ b with GameOver := g, Winner := w } : Board).EnPassantTarget = b.EnPassantTarget := rfl

theorem turn_flagsInv (b : Board) (g : Bool) (w : Color) :
    ({ b with GameOver := g, Winner := w } : Board).CurrentTurn = b.CurrentTurn := rfl

theorem pathClearLoop_flagsInv (b : Board) (g : Bool) (w : Color)
    (tR tC sR sC : ℤ) :
    ∀ (fuel : ℕ) (row col : ℤ),
      pathClearLoop { b with GameOver := g, Winner := w } tR tC sR sC fuel row col =
        pathClearLoop b tR tC sR sC fuel row col := by
  intro fuel
  induction fuel with
  | zero => intro row col; rfl
  | succ k ih =>
    intro row col
    unfold pathClearLoop
    rw [cell_flagsInv, ih]

theorem isPathClear_flagsInv (b : Board) (g : Bool) (w : Color) (m : Move) :
    isPathClear { b with GameOver := g, Winner := w } m = isPathClear b m := by
  unfold isPathClear
  rw [pathClearLoop_flagsInv]

theorem isValidBishopMove_flagsInv (b : Board) (g : Bool) (w : Color) (m : Move) :
    isValidBishopMove { b with GameOver := g, Winner := w } m = isValidBishopMove b m := by
  unfold isValidBishopMove
  rw [isPathClear_flagsInv]

theorem isValidRookMove_flagsInv (b : Board) (g : Bool) (w : Color) (m : Move) :
    isValidRookMove { b with GameOver := g, Winner := w } m = isValidRookMove b m := by
  unfold isValidRookMove
  rw [isPathClear_flagsInv]

theorem isValidQueenMove_flagsInv (b : Board) (g : Bool) (w : Color) (m : Move) :
    isValidQueenMove { b with GameOver := g, Winner := w } m = isValidQueenMove b m := by
  unfold isValidQueenMove
  rw [isValidBishopMove_flagsInv, isValidRookMove_flagsInv]

theorem isValidPawnMove_flagsInv (b : Board) (g : Bool) (w : Color) (m : Move) (p : Piece) :
    isValidPawnMove { b with GameOver := g, Winner := w } m p = isValidPawnMove b m p := by
  unfold isValidPawnMove
  rw [cell_flagsInv, ep_flagsInv]

theorem isSquareUnderAttack_flagsInv (b : Board) (g : Bool) (w : Color)
    (pos : Position) (c : Color) :
    isSquareUnderAttack { b with GameOver := g, Winner := w } pos c =
      isSquareUnderAttack b pos c := by
  unfold isSquareUnderAttack
  simp only [cell_flagsInv, isValidBishopMove_flagsInv, isValidRookMove_flagsInv,
    isValidQueenMove_flagsInv]

theorem canCastle_flagsInv (b : Board) (g : Bool) (w : Color) (m : Move) (p : Piece) :
    canCastle { b with GameOver := g, Winner := w } m p = canCastle b m p := by
  unfold canCastle
  simp only [cell_flagsInv, isSquareUnderAttack_flagsInv]

theorem isValidKingMove_flagsInv (b : Board) (g : Bool) (w : Color) (m : Move) (p : Piece) :
    isValidKingMove { b with GameOver := g, Winner := w } m p = isValidKingMove b m p := by
  unfold isValidKingMove
  rw [canCastle_flagsInv]

theorem findKing_flagsInv (b : Board) (g : Bool) (w : Color) (c : Color) :
    findKing { b with GameOver := g, Winner := w } c = findKing b c := by
  unfold findKing
  simp only [cell_flagsInv]

theorem setCell_flagsInv (b : Board) (g : Bool) (w : Color) (r c : ℤ) (p : Piece) :
    Board.setCell { b with GameOver := g, Winner := w } r c p =
      { Board.setCell b r c p with GameOver := g, Winner := w } := by
  unfold Board.setCell
  split <;> rfl

theorem isInCheck_flagsInv (b : Board) (g : Bool) (w : Color) (c : Color) :
    isInCheck { b with GameOver := g, Winner := w } c = isInCheck b c := by
  unfold isInCheck
  simp only [findKing_flagsInv, isSquareUnderAttack_flagsInv]

theorem wouldBeInCheck_flagsInv (b : Board) (g : Bool) (w : Color) (m : Move) (c : Color) :
    wouldBeInCheck { b with GameOver := g, Winner := w } m c = wouldBeInCheck b m c := by
  unfold wouldBeInCheck
  simp only [cell_flagsInv, setCell_flagsInv, isInCheck_flagsInv]

theorem IsValidMove_flagsInv (b : Board) (g : Bool) (w : Color) (m : Move) :
    IsValidMove { b with GameOver := g, Winner := w } m = IsValidMove b m := by
  unfold IsValidMove
  simp only [cell_flagsInv, turn_flagsInv, isValidPawnMove_flagsInv,
    isValidBishopMove_flagsInv, isValidRookMove_flagsInv, isValidQueenMove_flagsInv,
    isValidKingMove_flagsInv, wouldBeInCheck_flagsInv]

theorem GetLegalMoves_flagsInv (b : Board) (g : Bool) (w : Color) :
    GetLegalMoves { b with GameOver := g, Winner := w } = GetLegalMoves b := by
  unfold GetLegalMoves
  simp only [cell_flagsInv, turn_flagsInv, IsValidMove_flagsInv]

theorem checkGameOver_behavior (b : Board) :
    GetLegalMoves (checkGameOver b) = GetLegalMoves b ∧
    (checkGameOver b).CurrentTurn = b.CurrentTurn ∧
    (checkGameOver b).MovesCount = b.MovesCount ∧
    (∀ c : Color, isInCheck (checkGameOver b) c = isInCheck b c) ∧
    (GetLegalMoves b = [] → b.MovesCount ≤ 200 →
      (checkGameOver b).GameOver = true ∧
      (checkGameOver b).Winner =
        (if isInCheck b b.CurrentTurn then opponentOf b.CurrentTurn else Color.White)) ∧
    (200 < b.MovesCount →
      (checkGameOver b).GameOver = true ∧ (checkGameOver b).Winner = Color.White) := by
  unfold checkGameOver
  dsimp only
  split_ifs with h1 h2 h3 h3 h3 <;>
    simp_all [GetLegalMoves_flagsInv, isInCheck_flagsInv, turn_flagsInv]

theorem setCell_CurrentTurn (b : Board) (r c : ℤ) (p : Piece) :
    (Board.setCell b r c p).CurrentTurn = b.CurrentTurn := by
  unfold Board.setCell
  split <;> rfl

theorem MakeMove_eq_checkGameOver (b : Board) (m : Move) :
    ∃ x : Board, MakeMove b m = checkGameOver x :=
  ⟨_, rfl⟩

/-! ## Claim theorem: game-over detection (C2). -/

/-- C2 (amended): after every `MakeMove`, game-over detection recomputes
the legal moves of the (post-move) side to move; if none exist (and the
200-move override is not in effect), the game is over with the winner field
set to the opponent of the stalled side when it is in check (checkmate),
and set to `White` — the code's draw marker, **not** a value distinct from
a White win — when it is not in check (stalemate); whenever the move
counter exceeds 200 the game is over with the winner field forced to
`White` (the same draw marker) regardless of mobility. -/
theorem c2_amended_game_over (b : Board) (m : Move) :
    (GetLegalMoves (MakeMove b m) = [] → (MakeMove b m).MovesCount ≤ 200 →
      (MakeMove b m).GameOver = true ∧
      (MakeMove b m).Winner =
        (if isInCheck (MakeMove b m) (MakeMove b m).CurrentTurn = true then
          opponentOf (MakeMove b m).CurrentTurn
        else Color.White)) ∧
    (200 < (MakeMove b m).MovesCount →
      (MakeMove b m).GameOver = true ∧ (MakeMove b m).Winner = Color.White) := by
  have key : ∀ x : Board,
      (GetLegalMoves (checkGameOver x) = [] → (checkGameOver x).MovesCount ≤ 200 →
        (checkGameOver x).GameOver = true ∧
        (checkGameOver x).Winner =
          (if isInCheck (checkGameOver x) (checkGameOver x).CurrentTurn = true then
            opponentOf (checkGameOver x).CurrentTurn
          else Color.White)) ∧
      (200 < (checkGameOver x).MovesCount →
        (checkGameOver x).GameOver = true ∧ (checkGameOver x).Winner = Color.White) := by
    intro x
    obtain ⟨hGL, hCT, hMC, hIC, hEmpty, hCount⟩ := checkGameOver_behavior x
    rw [hGL, hCT, hMC, hIC]
    exact ⟨hEmpty, hCount⟩
  obtain ⟨x, hx⟩ := MakeMove_eq_checkGameOver b m
  rw [hx]
  exact key x

/-- Witness for C2 at the concrete stalemate (queen b3–b6 against the lone
king a8). -/
theorem c2_witness :
    GetLegalMoves (MakeMove staleBoard staleMove) = [] ∧
    (MakeMove staleBoard staleMove).MovesCount ≤ 200 ∧
    ((MakeMove staleBoard staleMove).GameOver = true ∧
      (MakeMove staleBoard staleMove).Winner =
        (if isInCheck (MakeMove staleBoard staleMove)
            (MakeMove staleBoard staleMove).CurrentTurn = true then
          opponentOf (MakeMove staleBoard staleMove).CurrentTurn
        else Color.White)) :=
  ⟨by decide, by decide,
   (c2_amended_game_over staleBoard staleMove).1 (by decide) (by decide)⟩

/-- C2 counterexample: the queen move b3–b6 stalemates the lone black king
(game over, no legal replies, not in check), yet the recorded result is
`Winner = White` — the very value that means a White win (the `Color` type
has no third value) — refuting the claim that a stalemate yields "a result
distinct from either color winning". -/
theorem c2_counterexample :
    (MakeMove staleBoard staleMove).GameOver = true ∧
    GetLegalMoves (MakeMove staleBoard staleMove) = [] ∧
    isInCheck (MakeMove staleBoard staleMove)
      (MakeMove staleBoard staleMove).CurrentTurn = false ∧
    (MakeMove staleBoard staleMove).Winner = Color.White ∧
    (∀ c : Color, c = Color.White ∨ c = Color.Black) := by
  refine ⟨by decide, by decide, by decide, by decide, ?_⟩
  intro c
  cases c
  · exact Or.inl rfl
  · exact Or.inr rfl

/-! ## Supporting lemmas: move selection (C4, C10). -/

theorem maxLoop_sentinel_or_mem (recur : Board → ℚ → ℚ → ℚ) (b : Board)
    (S : List Move) :
    ∀ (l : List Move) (alpha beta me : ℚ) (best : Move),
      (best.From.Row = -1 ∨ best ∈ S) → (∀ mv ∈ l, mv ∈ S) →
      ((maxLoop recur b l alpha beta me best).2.From.Row = -1 ∨
        (maxLoop recur b l alpha beta me best).2 ∈ S) := by
  intro l
  induction l with
  | nil => intro alpha beta me best hbest _; exact hbest
  | cons mv rest ih =>
    intro alpha beta me best hbest hsub
    unfold maxLoop
    dsimp only
    have hbest2 : (if me < recur (MakeMove b mv) alpha beta then mv else best).From.Row = -1 ∨
        (if me < recur (MakeMove b mv) alpha beta then mv else best) ∈ S := by
      split
      · exact Or.inr (hsub mv (List.mem_cons_self mv rest))
      · exact hbest
    split
    · exact hbest2
    · exact ih _ _ _ _ hbest2 fun x hx => hsub x (List.mem_cons_of_mem mv hx)

theorem minLoop_sentinel_or_mem (recur : Board → ℚ → ℚ → ℚ) (b : Board)
    (S : List Move) :
    ∀ (l : List Move) (alpha beta me : ℚ) (best : Move),
      (best.From.Row = -1 ∨ best ∈ S) → (∀ mv ∈ l, mv ∈ S) →
      ((minLoop recur b l alpha beta me best).2.From.Row = -1 ∨
        (minLoop recur b l alpha beta me best).2 ∈ S) := by
  intro l
  induction l with
  | nil => intro alpha beta me best hbest _; exact hbest
  | cons mv rest ih =>
    intro alpha beta me best hbest hsub
    unfold minLoop
    dsimp only
    have hbest2 : (if recur (MakeMove b mv) alpha beta < me then mv else best).From.Row = -1 ∨
        (if recur (MakeMove b mv) alpha beta < me then mv else best) ∈ S := by
      split
      · exact Or.inr (hsub mv (List.mem_cons_self mv rest))
      · exact hbest
    split
    · exact hbest2
    · exact ih _ _ _ _ hbest2 fun x hx => hsub x (List.mem_cons_of_mem mv hx)

theorem minimax_sentinel_or_mem (act : Act) (a : Agent) :
    ∀ (d : ℕ) (b : Board) (alpha beta : ℚ) (maxi : Bool),
      ((minimax act a d b alpha beta maxi).2.From.Row = -1 ∨
        (minimax act a d b alpha beta maxi).2 ∈ GetLegalMoves b) := by
  intro d b alpha beta maxi
  cases d with
  | zero => exact Or.inl rfl
  | succ k =>
    unfold minimax
    dsimp only
    split
    · exact Or.inl rfl
    · split
      · exact Or.inl rfl
      · split
        · exact maxLoop_sentinel_or_mem _ b (GetLegalMoves b) (GetLegalMoves b)
            alpha beta (-maxFloat) sentinelMove (Or.inl rfl) fun _ hx => hx
        · exact minLoop_sentinel_or_mem _ b (GetLegalMoves b) (GetLegalMoves b)
            alpha beta maxFloat sentinelMove (Or.inl rfl) fun _ hx => hx

theorem getD_mod_mem {l : List Move} (h : l ≠ []) (i : ℕ) :
    l.getD (i % l.length) zeroMove ∈ l := by
  have hlen : 0 < l.length := List.length_pos.mpr h
  have hlt : i % l.length < l.length := Nat.mod_lt i hlen
  rw [List.getD_eq_getElem l zeroMove hlt]
  exact List.getElem_mem hlt

theorem chooseMove_mem (act : Act) (a : Agent) (b : Board)
    (rv : ℚ) (r1 r2 : ℕ) (h : GetLegalMoves b ≠ []) :
    ChooseMove act a b rv r1 r2 ∈ GetLegalMoves b := by
  unfold ChooseMove
  dsimp only
  rw [if_neg h]
  split
  · exact getD_mod_mem h r1
  · split
    · exact getD_mod_mem h r2
    · rcases minimax_sentinel_or_mem act a 2 b (-maxFloat) maxFloat true with hs | hm
      · rename_i hrow
        exact absurd hs hrow
      · exact hm

theorem chooseMove_empty (act : Act) (a : Agent) (b : Board)
    (rv : ℚ) (r1 r2 : ℕ) (h : GetLegalMoves b = []) :
    ChooseMove act a b rv r1 r2 = zeroMove := by
  unfold ChooseMove
  dsimp only
  rw [if_pos h]

theorem mem_GetLegalMoves_valid {b : Board} {mv : Move}
    (h : mv ∈ GetLegalMoves b) : IsValidMove b mv = true := by
  unfold GetLegalMoves at h
  simp only [List.mem_flatMap] at h
  obtain ⟨frc, _, h⟩ := h
  split at h
  · simp at h
  · simp only [List.mem_flatMap] at h
    obtain ⟨trc, _, h⟩ := h
    split at h
    · rename_i hvalid
      rw [List.mem_singleton] at h
      rw [h]
      exact hvalid
    · simp at h

theorem IsValidMove_from_row_nonneg {b : Board} {mv : Move}
    (h : IsValidMove b mv = true) : 0 ≤ mv.From.Row := by
  unfold IsValidMove at h
  split_ifs at h with h1
  · push_neg at h1
    exact h1.1

theorem zeroMove_never_valid (b : Board) : IsValidMove b zeroMove = false := by
  unfold IsValidMove zeroMove
  dsimp only
  rw [if_neg (by norm_num), if_neg (by norm_num)]
  split_ifs with h1 h2 h3 h4
  · rfl
  · rfl
  · rfl
  · rfl
  · exact absurd ⟨h1, rfl⟩ h3

/-! ## Claim theorems: move selection (C4, C10). -/

/-- C4: for every board (and any values of the random draws), the move
`ChooseMove` returns is an element of `GetLegalMoves` of that same board
whenever that list is non-empty; when the list is empty — checked before
either the epsilon branch or the minimax branch runs — `ChooseMove` returns
the designated empty move `Move{}`, which is never a legal move of any
board. -/
theorem c4_choose_move_legal (act : Act) (a : Agent) (b : Board)
    (rv : ℚ) (r1 r2 : ℕ) :
    (GetLegalMoves b ≠ [] → ChooseMove act a b rv r1 r2 ∈ GetLegalMoves b) ∧
    (GetLegalMoves b = [] → ChooseMove act a b rv r1 r2 = zeroMove) ∧
    (∀ b2 : Board, IsValidMove b2 zeroMove = false) :=
  ⟨chooseMove_mem act a b rv r1 r2, chooseMove_empty act a b rv r1 r2,
   zeroMove_never_valid⟩

/-- Witness for C4 on the initial position (epsilon branch taken). -/
theorem c4_witness :
    GetLegalMoves NewBoard ≠ [] ∧
    ChooseMove act0 a0 NewBoard 0 0 0 ∈ GetLegalMoves NewBoard :=
  ⟨by decide, (c4_choose_move_legal act0 a0 NewBoard 0 0 0).1 (by decide)⟩

/-- C10: when the board has no legal moves, `ChooseMove` returns the
zero-valued `Move{}` (from and to both `(0,0)`), whose `From.Row` is not
`-1`; and when legal moves exist, the move returned also never has
`From.Row = -1` (legal moves have non-negative rows, and the minimax
sentinel is replaced by a random legal move before returning) — so a caller
testing `From.Row = -1`, as the self-play loop does, never matches the
value `ChooseMove` actually returns. -/
theorem c10_no_move_sentinel (act : Act) (a : Agent) (b : Board)
    (rv : ℚ) (r1 r2 : ℕ) :
    (GetLegalMoves b = [] →
      ChooseMove act a b rv r1 r2 = zeroMove ∧ zeroMove.From.Row ≠ -1) ∧
    (GetLegalMoves b ≠ [] → (ChooseMove act a b rv r1 r2).From.Row ≠ -1) := by
  constructor
  · intro h
    exact ⟨chooseMove_empty act a b rv r1 r2 h, by decide⟩
  · intro h
    have hmem := chooseMove_mem act a b rv r1 r2 h
    have hvalid := mem_GetLegalMoves_valid hmem
    have hrow := IsValidMove_from_row_nonneg hvalid
    omega

/-- Witness for C10 at a concrete moveless board (the stalemate position). -/
theorem c10_witness :
    GetLegalMoves (MakeMove staleBoard staleMove) = [] ∧
    (ChooseMove act0 a0 (MakeMove staleBoard staleMove) 0 0 0 = zeroMove ∧
      zeroMove.From.Row ≠ -1) :=
  ⟨by decide,
   (c10_no_move_sentinel act0 a0 (MakeMove staleBoard staleMove) 0 0 0).1 (by decide)⟩

/-! ## Supporting lemmas: the gradient step (C6). -/

theorem sumTo_eq_zero {f : ℕ → ℚ} (h : ∀ j, f j = 0) : ∀ n, sumTo f n = 0 := by
  intro n
  induction n with
  | zero => rfl
  | succ k ih => unfold sumTo; rw [ih, h k, add_zero]

theorem hidden1_net0 (i : ℕ) : hidden1 net0 x0 i = 0 := by
  unfold hidden1
  rw [sumTo_eq_zero fun j => by simp [x0]]
  simp [net0, zeroNet, relu]

theorem hidden2_net0_zero : hidden2 net0 x0 0 = 1 := by
  unfold hidden2
  rw [sumTo_eq_zero fun j => by simp [net0, zeroNet]]
  simp [net0, zeroNet, relu]

theorem outSum_net0 : outSum net0 x0 = 0 := by
  unfold outSum
  rw [sumTo_eq_zero fun j => by simp [net0, zeroNet]]
  simp [net0, zeroNet]

theorem Train_net0_Bias2_zero : (Train act0 net0 x0 1).Bias2 0 = 1 + 1 / 1000000 := by
  show net0.Bias2 0 + (net0.Momentum * net0.VBias2 0 + net0.LearningRate *
    (if hidden2 net0 x0 0 ≤ 0 then 0
     else ((1 - act0.toFun (outSum net0 x0)) * act0.deriv (outSum net0 x0)) *
       (net0.Weights3 0 +
         (net0.Momentum * net0.VWeights3 0 + net0.LearningRate *
           (((1 - act0.toFun (outSum net0 x0)) * act0.deriv (outSum net0 x0)) *
             hidden2 net0 x0 0))))) = 1 + 1 / 1000000
  rw [outSum_net0, hidden2_net0_zero]
  norm_num [act0, net0, zeroNet]

theorem TrainSpec_net0_Bias2_zero : (TrainSpec act0 net0 x0 1).Bias2 0 = 1 := by
  show net0.Bias2 0 + (net0.Momentum * net0.VBias2 0 + net0.LearningRate *
    (if hidden2 net0 x0 0 ≤ 0 then 0
     else ((1 - act0.toFun (outSum net0 x0)) * act0.deriv (outSum net0 x0)) *
       net0.Weights3 0)) = 1
  rw [outSum_net0, hidden2_net0_zero]
  norm_num [act0, net0, zeroNet]

/-! ## Claim theorems: the gradient step (C6). -/

/-- C6 counterexample: `Train` does **not** compute all layer gradients with
respect to the start-of-call weights. On a concrete network (all parameters
zero except the first second-hidden-layer bias) and the zero input — where
the activation is only ever evaluated at 0, at which `act0` agrees exactly
with tanh and its derivative — the code's result differs from the
start-of-call-weights backpropagation `TrainSpec`: the code updates
`Weights3` first and then feeds the **updated** value into the hidden-layer
error, producing `Bias2 0 = 1 + 10⁻⁶` instead of `1`. -/
theorem c6_counterexample : Train act0 net0 x0 1 ≠ TrainSpec act0 net0 x0 1 := by
  intro hEq
  have h1 := Train_net0_Bias2_zero
  rw [hEq, TrainSpec_net0_Bias2_zero] at h1
  norm_num at h1

/-- C6 (amended): `Train` performs one backpropagation-with-momentum step in
which every parameter update has the form
`velocity = momentum·velocity + learning_rate·gradient; weight += velocity`;
the output-layer delta is `(target − output)·tanh'(s)` with `output` equal to
the entry-time `Forward` evaluation; but the hidden-layer errors are
computed against the **already updated** downstream weight matrices (the
`Weights3`/`Weights2` of the result), not the start-of-call ones. -/
theorem c6_amended_train (act : Act) (n : Network) (input : ℕ → ℚ) (target : ℚ) :
    act.toFun (outSum n input) = Forward act n input ∧
    (Train act n input target).LearningRate = n.LearningRate ∧
    (Train act n input target).Momentum = n.Momentum ∧
    (∀ j,
      (Train act n input target).VWeights3 j =
        n.Momentum * n.VWeights3 j + n.LearningRate *
          (((target - Forward act n input) * act.deriv (outSum n input)) *
            hidden2 n input j) ∧
      (Train act n input target).Weights3 j =
        n.Weights3 j + (Train act n input target).VWeights3 j) ∧
    ((Train act n input target).VBias3 =
        n.Momentum * n.VBias3 + n.LearningRate *
          ((target - Forward act n input) * act.deriv (outSum n input)) ∧
      (Train act n input target).Bias3 = n.Bias3 + (Train act n input target).VBias3) ∧
    (∀ i j,
      (Train act n input target).VWeights2 i j =
        n.Momentum * n.VWeights2 i j + n.LearningRate *
          ((if hidden2 n input j ≤ 0 then 0
            else ((target - Forward act n input) * act.deriv (outSum n input)) *
              (Train act n input target).Weights3 j) * hidden1 n input i) ∧
      (Train act n input target).Weights2 i j =
        n.Weights2 i j + (Train act n input target).VWeights2 i j) ∧
    (∀ j,
      (Train act n input target).VBias2 j =
        n.Momentum * n.VBias2 j + n.LearningRate *
          (if hidden2 n input j ≤ 0 then 0
           else ((target - Forward act n input) * act.deriv (outSum n input)) *
             (Train act n input target).Weights3 j) ∧
      (Train act n input target).Bias2 j =
        n.Bias2 j + (Train act n input target).VBias2 j) ∧
    (∀ i j,
      (Train act n input target).VWeights1 i j =
        n.Momentum * n.VWeights1 i j + n.LearningRate *
          ((if hidden1 n input j ≤ 0 then 0
            else sumTo (fun j2 =>
              (if hidden2 n input j2 ≤ 0 then 0
               else ((target - Forward act n input) * act.deriv (outSum n input)) *
                 (Train act n input target).Weights3 j2) *
              (Train act n input target).Weights2 j j2) 128) * input i) ∧
      (Train act n input target).Weights1 i j =
        n.Weights1 i j + (Train act n input target).VWeights1 i j) ∧
    (∀ j,
      (Train act n input target).VBias1 j =
        n.Momentum * n.VBias1 j + n.LearningRate *
          (if hidden1 n input j ≤ 0 then 0
           else sumTo (fun j2 =>
             (if hidden2 n input j2 ≤ 0 then 0
              else ((target - Forward act n input) * act.deriv (outSum n input)) *
                (Train act n input target).Weights3 j2) *
             (Train act n input target).Weights2 j j2) 128) ∧
      (Train act n input target).Bias1 j =
        n.Bias1 j + (Train act n input target).VBias1 j) :=
  ⟨rfl, rfl, rfl, fun _ => ⟨rfl, rfl⟩, ⟨rfl, rfl⟩, fun _ _ => ⟨rfl, rfl⟩,
   fun _ => ⟨rfl, rfl⟩, fun _ _ => ⟨rfl, rfl⟩, fun _ => ⟨rfl, rfl⟩⟩

/-! ## Supporting lemmas: path clearance agrees with the spec's
"every intervening square empty" (C1, C3). -/

theorem absI_nonneg (x : ℤ) : 0 ≤ absI x := by
  unfold absI; split <;> omega

theorem absI_eq_zero {x : ℤ} (h : absI x = 0) : x = 0 := by
  unfold absI at h; split at h <;> omega

theorem stepSign_eq_zero_iff (x : ℤ) : stepSign x = 0 ↔ x = 0 := by
  unfold stepSign
  split_ifs with h1 h2
  · constructor
    · intro h; norm_num at h
    · intro h; omega
  · constructor
    · intro h; norm_num at h
    · intro h; omega
  · constructor
    · intro h; omega
    · intro h; rfl

theorem absI_mul_stepSign (x : ℤ) : absI x * stepSign x = x := by
  unfold absI stepSign
  rcases lt_trichotomy x 0 with h | h | h
  · rw [if_pos h, if_neg (by omega), if_pos h]; ring
  · subst h; norm_num
  · rw [if_neg (by omega), if_pos h]; ring

theorem pathClearLoop_iff (b : Board) (sR sC : ℤ) (hs : ¬(sR = 0 ∧ sC = 0)) :
    ∀ (d : ℕ) (fR fC : ℤ) (fuel : ℕ), 1 ≤ d → d ≤ fuel →
      (pathClearLoop b (fR + d * sR) (fC + d * sC) sR sC fuel (fR + sR) (fC + sC) = true ↔
        ∀ k : ℕ, k < d → 1 ≤ k →
          (b.cell (fR + k * sR) (fC + k * sC)).kind = PieceType.Empty) := by
  intro d
  induction d with
  | zero => intro fR fC fuel h1 _; omega
  | succ dPrev ih =>
    intro fR fC fuel h1 hfuel
    obtain ⟨fuel2, rfl⟩ : ∃ f2, fuel = f2 + 1 := ⟨fuel - 1, by omega⟩
    by_cases hd : dPrev = 0
    · subst hd
      unfold pathClearLoop
      rw [if_pos ⟨by push_cast; ring, by push_cast; ring⟩]
      constructor
      · intro _ k hk hk1; omega
      · intro _; rfl
    · unfold pathClearLoop
      have hne : ¬(fR + sR = fR + ((dPrev + 1 : ℕ) : ℤ) * sR ∧
          fC + sC = fC + ((dPrev + 1 : ℕ) : ℤ) * sC) := by
        rintro ⟨hr, hc⟩
        apply hs
        have hdz : ((dPrev : ℤ)) ≠ 0 := by exact_mod_cast hd
        constructor
        · have : (dPrev : ℤ) * sR = 0 := by push_cast at hr; linarith
          exact (mul_eq_zero.mp this).resolve_left hdz
        · have : (dPrev : ℤ) * sC = 0 := by push_cast at hc; linarith
          exact (mul_eq_zero.mp this).resolve_left hdz
      rw [if_neg hne]
      by_cases hcell : (b.cell (fR + sR) (fC + sC)).kind = PieceType.Empty
      · rw [if_neg (by simp [hcell])]
        have harg1 : fR + ((dPrev + 1 : ℕ) : ℤ) * sR = (fR + sR) + (dPrev : ℤ) * sR := by
          push_cast; ring
        have harg2 : fC + ((dPrev + 1 : ℕ) : ℤ) * sC = (fC + sC) + (dPrev : ℤ) * sC := by
          push_cast; ring
        rw [harg1, harg2, ih (fR + sR) (fC + sC) fuel2 (by omega) (by omega)]
        constructor
        · intro hAll k hk hk1
          by_cases hk2 : k = 1
          · subst hk2
            have hc1 : fR + ((1 : ℕ) : ℤ) * sR = fR + sR := by push_cast; ring
            have hc2 : fC + ((1 : ℕ) : ℤ) * sC = fC + sC := by push_cast; ring
            rw [hc1, hc2]
            exact hcell
          · have hc1 : fR + (k : ℤ) * sR = (fR + sR) + ((k - 1 : ℕ) : ℤ) * sR := by
              have hcast : ((k - 1 : ℕ) : ℤ) = (k : ℤ) - 1 := by omega
              rw [hcast]; ring
            have hc2 : fC + (k : ℤ) * sC = (fC + sC) + ((k - 1 : ℕ) : ℤ) * sC := by
              have hcast : ((k - 1 : ℕ) : ℤ) = (k : ℤ) - 1 := by omega
              rw [hcast]; ring
            rw [hc1, hc2]
            exact hAll (k - 1) (by omega) (by omega)
        · intro hAll k hk hk1
          have hc1 : (fR + sR) + (k : ℤ) * sR = fR + ((k + 1 : ℕ) : ℤ) * sR := by
            push_cast; ring
          have hc2 : (fC + sC) + (k : ℤ) * sC = fC + ((k + 1 : ℕ) : ℤ) * sC := by
            push_cast; ring
          rw [hc1, hc2]
          exact hAll (k + 1) (by omega) (by omega)
      · rw [if_pos hcell]
        constructor
        · intro habs
          exact absurd habs (by simp)
        · intro hAll
          exfalso
          apply hcell
          have h1 := hAll 1 (by omega) le_rfl
          have hc1 : fR + ((1 : ℕ) : ℤ) * sR = fR + sR := by push_cast; ring
          have hc2 : fC + ((1 : ℕ) : ℤ) * sC = fC + sC := by push_cast; ring
          rw [hc1, hc2] at h1
          exact h1

theorem absI_le_16 {x : ℤ} (h1 : -16 ≤ x) (h2 : x ≤ 16) : absI x ≤ 16 := by
  unfold absI; split <;> omega

theorem one_le_absI {x : ℤ} (h : x ≠ 0) : 1 ≤ absI x := by
  unfold absI; split <;> omega

theorem isPathClear_iff_between (b : Board) (m : Move)
    (halign : absI (m.To.Row - m.From.Row) = absI (m.To.Col - m.From.Col) ∨
      m.To.Row - m.From.Row = 0 ∨ m.To.Col - m.From.Col = 0)
    (hbound : max (absI (m.To.Row - m.From.Row)) (absI (m.To.Col - m.From.Col)) ≤ 16) :
    (isPathClear b m = true ↔ specBetweenEmpty b m.From m.To) := by
  by_cases hzero : m.To.Row - m.From.Row = 0 ∧ m.To.Col - m.From.Col = 0
  · obtain ⟨h1, h2⟩ := hzero
    unfold isPathClear
    dsimp only
    rw [(stepSign_eq_zero_iff _).mpr h1, (stepSign_eq_zero_iff _).mpr h2]
    have hr : m.From.Row + 0 = m.To.Row := by omega
    have hc : m.From.Col + 0 = m.To.Col := by omega
    rw [hr, hc]
    constructor
    · intro _
      unfold specBetweenEmpty
      intro k hk _
      exfalso
      rw [h1, h2] at hk
      simp only [absI, if_neg (by omega : ¬ (0:ℤ) < 0)] at hk
      omega
    · intro _
      rw [show (16 : ℕ) = 15 + 1 from rfl]
      unfold pathClearLoop
      rw [if_pos ⟨rfl, rfl⟩]
  · have hd1 : 1 ≤ (max (absI (m.To.Row - m.From.Row)) (absI (m.To.Col - m.From.Col))).toNat := by
      rcases Decidable.not_and_iff_or_not.mp hzero with h | h
      · have := one_le_absI h
        have hmax := le_max_left (absI (m.To.Row - m.From.Row)) (absI (m.To.Col - m.From.Col))
        omega
      · have := one_le_absI h
        have hmax := le_max_right (absI (m.To.Row - m.From.Row)) (absI (m.To.Col - m.From.Col))
        omega
    have hsz : ¬(stepSign (m.To.Row - m.From.Row) = 0 ∧ stepSign (m.To.Col - m.From.Col) = 0) := by
      rintro ⟨s1, s2⟩
      exact hzero ⟨(stepSign_eq_zero_iff _).mp s1, (stepSign_eq_zero_iff _).mp s2⟩
    have hcastR : ∀ x : ℤ, 0 ≤ x → ((x.toNat : ℤ)) = x := fun x hx => Int.toNat_of_nonneg hx
    have hdecompR : m.To.Row = m.From.Row +
        ((max (absI (m.To.Row - m.From.Row)) (absI (m.To.Col - m.From.Col))).toNat : ℤ) *
          stepSign (m.To.Row - m.From.Row) := by
      rcases halign with heq | h0 | h0
      · have hmax : max (absI (m.To.Row - m.From.Row)) (absI (m.To.Col - m.From.Col)) =
            absI (m.To.Row - m.From.Row) := by rw [heq]; exact max_self _
        rw [hmax, hcastR _ (absI_nonneg _), absI_mul_stepSign]
        ring
      · rw [(stepSign_eq_zero_iff _).mpr h0]
        omega
      · have hmax : max (absI (m.To.Row - m.From.Row)) (absI (m.To.Col - m.From.Col)) =
            absI (m.To.Row - m.From.Row) := by
          rw [show absI (m.To.Col - m.From.Col) = 0 from by rw [h0]; rfl]
          exact max_eq_left (absI_nonneg _)
        rw [hmax, hcastR _ (absI_nonneg _), absI_mul_stepSign]
        ring
    have hdecompC : m.To.Col = m.From.Col +
        ((max (absI (m.To.Row - m.From.Row)) (absI (m.To.Col - m.From.Col))).toNat : ℤ) *
          stepSign (m.To.Col - m.From.Col) := by
      rcases halign with heq | h0 | h0
      · have hmax : max (absI (m.To.Row - m.From.Row)) (absI (m.To.Col - m.From.Col)) =
            absI (m.To.Col - m.From.Col) := by rw [heq]; exact max_self _
        rw [hmax, hcastR _ (absI_nonneg _), absI_mul_stepSign]
        ring
      · have hmax : max (absI (m.To.Row - m.From.Row)) (absI (m.To.Col - m.From.Col)) =
            absI (m.To.Col - m.From.Col) := by
          rw [show absI (m.To.Row - m.From.Row) = 0 from by rw [h0]; rfl]
          exact max_eq_right (absI_nonneg _)
        rw [hmax, hcastR _ (absI_nonneg _), absI_mul_stepSign]
        ring
      · rw [(stepSign_eq_zero_iff _).mpr h0]
        omega
    have hD16 : (max (absI (m.To.Row - m.From.Row)) (absI (m.To.Col - m.From.Col))).toNat ≤ 16 := by
      rw [Int.toNat_le]
      exact_mod_cast hbound
    unfold isPathClear
    dsimp only
    set D := (max (absI (m.To.Row - m.From.Row)) (absI (m.To.Col - m.From.Col))).toNat with hD
    set sR := stepSign (m.To.Row - m.From.Row) with hsR
    set sC := stepSign (m.To.Col - m.From.Col) with hsC
    conv_lhs =>
      rw [hdecompR, hdecompC]
    rw [pathClearLoop_iff b sR sC hsz D m.From.Row m.From.Col 16 hd1 hD16]
    unfold specBetweenEmpty
    constructor
    · intro h k hk hk1; exact h k hk hk1
    · intro h k hk hk1; exact h k hk hk1

theorem isValidBishopMove_iff (b : Board) (m : Move)
    (hbound : max (absI (m.To.Row - m.From.Row)) (absI (m.To.Col - m.From.Col)) ≤ 16) :
    (isValidBishopMove b m = true ↔ specBishopRule b m) := by
  unfold isValidBishopMove specBishopRule
  by_cases heq : absI (m.To.Row - m.From.Row) = absI (m.To.Col - m.From.Col)
  · rw [if_neg (by simpa using heq)]
    rw [isPathClear_iff_between b m (Or.inl heq) hbound]
    constructor
    · intro h; exact ⟨heq, h⟩
    · intro h; exact h.2
  · rw [if_pos heq]
    constructor
    · intro h; exact absurd h (by simp)
    · intro h; exact absurd h.1 heq

theorem isValidRookMove_iff (b : Board) (m : Move)
    (hbound : max (absI (m.To.Row - m.From.Row)) (absI (m.To.Col - m.From.Col)) ≤ 16) :
    (isValidRookMove b m = true ↔ specRookRule b m) := by
  unfold isValidRookMove specRookRule
  by_cases halign : m.From.Row = m.To.Row ∨ m.From.Col = m.To.Col
  · rw [if_neg (by tauto)]
    have halign2 : absI (m.To.Row - m.From.Row) = absI (m.To.Col - m.From.Col) ∨
        m.To.Row - m.From.Row = 0 ∨ m.To.Col - m.From.Col = 0 := by
      rcases halign with h | h
      · exact Or.inr (Or.inl (by omega))
      · exact Or.inr (Or.inr (by omega))
    rw [isPathClear_iff_between b m halign2 hbound]
    constructor
    · intro h; exact ⟨halign, h⟩
    · intro h; exact h.2
  · rw [if_pos (by tauto)]
    constructor
    · intro h; exact absurd h (by simp)
    · intro h; exact absurd h.1 halign

theorem isValidQueenMove_iff (b : Board) (m : Move)
    (hbound : max (absI (m.To.Row - m.From.Row)) (absI (m.To.Col - m.From.Col)) ≤ 16) :
    (isValidQueenMove b m = true ↔ specQueenRule b m) := by
  unfold isValidQueenMove specQueenRule
  rw [Bool.or_eq_true, isValidBishopMove_iff b m hbound, isValidRookMove_iff b m hbound]

theorem isValidKnightMove_iff (m : Move) :
    (isValidKnightMove m = true ↔ specKnightRule m) := by
  unfold isValidKnightMove specKnightRule
  dsimp only
  rw [decide_eq_true_eq]

theorem absI_zero : absI 0 = 0 := rfl

theorem isValidPawnMove_iff (b : Board) (m : Move) (piece : Piece) :
    (isValidPawnMove b m piece = true ↔ specPawnRule b m piece.color) := by
  unfold isValidPawnMove specPawnRule
  dsimp only
  have hdir : (if piece.color = Color.Black then (1 : ℤ) else -1) ≠ 0 := by
    split <;> norm_num
  by_cases hA : m.To.Col - m.From.Col = 0 ∧
      m.To.Row - m.From.Row = (if piece.color = Color.Black then (1 : ℤ) else -1)
  · rw [if_pos hA, decide_eq_true_eq]
    constructor
    · intro h
      exact Or.inl ⟨hA.1, hA.2, h⟩
    · rintro (⟨_, _, h⟩ | ⟨_, h2, _⟩ | ⟨h1, _, _⟩)
      · exact h
      · exfalso; omega
      · exfalso; rw [hA.1, absI_zero] at h1; omega
  · rw [if_neg hA]
    by_cases hB : m.To.Col - m.From.Col = 0 ∧
        m.To.Row - m.From.Row = 2 * (if piece.color = Color.Black then (1 : ℤ) else -1) ∧
        m.From.Row = (if piece.color = Color.Black then (1 : ℤ) else 6)
    · rw [if_pos hB, decide_eq_true_eq]
      constructor
      · intro h
        exact Or.inr (Or.inl ⟨hB.1, hB.2.1, hB.2.2, h.1, h.2⟩)
      · rintro (⟨h1, h2, _⟩ | ⟨_, _, _, h4, h5⟩ | ⟨h1, _, _⟩)
        · exact absurd ⟨h1, h2⟩ hA
        · exact ⟨h4, h5⟩
        · exfalso; rw [hB.1, absI_zero] at h1; omega
    · rw [if_neg hB]
      by_cases hC : absI (m.To.Col - m.From.Col) = 1 ∧
          m.To.Row - m.From.Row = (if piece.color = Color.Black then (1 : ℤ) else -1)
      · rw [if_pos hC]
        have hcne : m.To.Col - m.From.Col ≠ 0 := by
          intro h0; rw [h0, absI_zero] at hC; omega
        constructor
        · intro h
          split_ifs at h with htgt
          · exact Or.inr (Or.inr ⟨hC.1, hC.2, Or.inl htgt⟩)
          · cases hep : b.EnPassantTarget with
            | none => rw [hep] at h; exact absurd h (by simp)
            | some t =>
              rw [hep] at h
              rw [decide_eq_true_eq] at h
              refine Or.inr (Or.inr ⟨hC.1, hC.2, Or.inr ?_⟩)
              obtain ⟨tr, tc⟩ := t
              obtain ⟨hr2, hc2⟩ := h
              dsimp only at hr2 hc2
              rw [← hr2, ← hc2]
        · rintro (⟨h1, h2, _⟩ | ⟨h1, _, _⟩ | ⟨_, _, hcase⟩)
          · exact absurd ⟨h1, h2⟩ hA
          · exact absurd h1 hcne
          · rcases hcase with htgt | hep
            · rw [if_pos htgt]
            · split_ifs with htgt
              · rfl
              · rw [hep, decide_eq_true_eq]
                exact ⟨rfl, rfl⟩
      · rw [if_neg hC]
        constructor
        · intro h; exact absurd h (by simp)
        · rintro (⟨h1, h2, _⟩ | ⟨h1, h2, h3, _, _⟩ | ⟨h1, h2, _⟩)
          · exact absurd ⟨h1, h2⟩ hA
          · exact absurd ⟨h1, h2, h3⟩ hB
          · exact absurd ⟨h1, h2⟩ hC

theorem if_false_chain (c : Prop) [Decidable c] (rest : Bool) (restP : Prop)
    (h : rest = true ↔ restP) :
    ((if c then false else rest) = true) ↔ (¬c ∧ restP) := by
  split_ifs with hc
  · constructor
    · intro habs; exact absurd habs (by simp)
    · rintro ⟨hnc, _⟩; exact absurd hc hnc
  · constructor
    · intro hr; exact ⟨hc, h.mp hr⟩
    · rintro ⟨_, hp⟩; exact h.mpr hp

theorem between_cols_iff (b : Board) (row minC maxC : ℤ) :
    ((((List.range (maxC - minC - 1).toNat).map fun i : ℕ => minC + 1 + (i : ℤ)).all
        fun col => decide ((b.cell row col).kind = PieceType.Empty)) = true) ↔
      (∀ col : ℤ, minC < col → col < maxC → (b.cell row col).kind = PieceType.Empty) := by
  rw [List.all_eq_true]
  constructor
  · intro h col hlo hhi
    have hmem : col ∈ (List.range (maxC - minC - 1).toNat).map fun i : ℕ => minC + 1 + (i : ℤ) := by
      rw [List.mem_map]
      refine ⟨(col - minC - 1).toNat, ?_, ?_⟩
      · rw [List.mem_range]; omega
      · omega
    have := h col hmem
    rwa [decide_eq_true_eq] at this
  · intro h x hmem
    rw [List.mem_map] at hmem
    obtain ⟨i, hi, rfl⟩ := hmem
    rw [List.mem_range] at hi
    rw [decide_eq_true_eq]
    exact h _ (by omega) (by omega)

theorem kingflag_iff (c : Color) (w bk : Bool) :
    (¬(c = Color.White ∧ w = true) ∧ ¬(c = Color.Black ∧ bk = true)) ↔
      (if c = Color.White then w = false else bk = false) := by
  cases c <;> cases w <;> cases bk <;> decide

theorem rookflag_iff (c : Color) (ks : Prop) [Decidable ks] (w1 w2 b1 b2 : Bool) :
    ((if c = Color.White then (if ks then w1 else w2)
      else (if ks then b1 else b2)) = false) ↔
      (if c = Color.White then (if ks then w1 = false else w2 = false)
       else (if ks then b1 = false else b2 = false)) := by
  cases c <;> by_cases hks : ks <;> simp [hks]

theorem piece_eq_iff (p : Piece) (k : PieceType) (c : Color) :
    (p.kind = k ∧ p.color = c) ↔ p = ⟨k, c⟩ := by
  cases p
  simp [Piece.mk.injEq]

theorem canCastle_iff (b : Board) (m : Move) (piece : Piece)
    (hrow : m.To.Row = m.From.Row) :
    (canCastle b m piece = true ↔ specCastleRule b m piece.color) := by
  unfold canCastle specCastleRule
  dsimp only
  rw [if_false_chain _ _ _ (if_false_chain _ _ _ (if_false_chain _ _ _
    (if_false_chain _ _ _ (if_false_chain _ _ _ (if_false_chain _ _ _
      (Iff.rfl))))))]
  have hTo : (⟨m.From.Row, m.To.Col⟩ : Position) = m.To := by
    rw [← hrow]
  simp only [decide_eq_true_eq, List.any_cons, List.any_nil, Bool.or_false,
    Bool.or_eq_true, not_or, not_not, Bool.not_eq_true, Bool.not_eq_false, ne_eq]
  rw [hTo]
  constructor
  · rintro ⟨h1, h2, h3, ⟨hk, hc⟩, h5, h6, h7a, h7b⟩
    refine ⟨(kingflag_iff _ _ _).mp ⟨h1, h2⟩, (rookflag_iff _ _ _ _ _ _).mp h3,
      (piece_eq_iff _ _ _).mp ⟨hk, hc⟩, (between_cols_iff _ _ _ _).mp h5, h6, h7a, h7b⟩
  · rintro ⟨h1, h2, h3, h4, h5, h6, h7⟩
    obtain ⟨hk, hc⟩ := (piece_eq_iff _ _ _).mpr h3
    exact ⟨((kingflag_iff _ _ _).mpr h1).1, ((kingflag_iff _ _ _).mpr h1).2,
      (rookflag_iff _ _ _ _ _ _).mpr h2, ⟨hk, hc⟩,
      (between_cols_iff _ _ _ _).mpr h4, h5, h6, h7⟩

theorem isValidKingMove_iff (b : Board) (m : Move) (piece : Piece) :
    (isValidKingMove b m piece = true ↔ specKingRule b m piece.color) := by
  unfold isValidKingMove specKingRule
  dsimp only
  by_cases h1 : absI (m.To.Row - m.From.Row) ≤ 1 ∧ absI (m.To.Col - m.From.Col) ≤ 1
  · rw [if_pos h1]
    constructor
    · intro _; exact Or.inl h1
    · intro _; rfl
  · rw [if_neg h1]
    by_cases h2 : absI (m.To.Row - m.From.Row) = 0 ∧ absI (m.To.Col - m.From.Col) = 2
    · rw [if_pos h2]
      have hrow : m.To.Row = m.From.Row := by
        have := absI_eq_zero h2.1; omega
      rw [canCastle_iff b m piece hrow]
      constructor
      · intro h; exact Or.inr ⟨h2.1, h2.2, h⟩
      · rintro (hcontra | ⟨_, _, h⟩)
        · exact absurd hcontra h1
        · exact h
    · rw [if_neg h2]
      constructor
      · intro h; exact absurd h (by simp)
      · rintro (hcontra | ⟨ha, hb, _⟩)
        · exact absurd hcontra h1
        · exact absurd ⟨ha, hb⟩ h2

set_option maxHeartbeats 1000000 in
/-- The central refinement: the embedded `IsValidMove` agrees with the
spec-worded legality predicate (amended to the code's bare-relocation check
simulation). -/
theorem IsValidMove_iff_SpecLegal (b : Board) (m : Move) :
    (IsValidMove b m = true ↔ SpecLegal b m) := by
  unfold IsValidMove SpecLegal
  dsimp only
  by_cases hR1 : m.From.Row < 0 ∨ m.From.Row > 7 ∨ m.From.Col < 0 ∨ m.From.Col > 7
  · rw [if_pos hR1]
    constructor
    · intro h; exact absurd h (by simp)
    · rintro ⟨hin, _⟩
      unfold inRange at hin
      omega
  · rw [if_neg hR1]
    push_neg at hR1
    by_cases hR2 : m.To.Row < 0 ∨ m.To.Row > 7 ∨ m.To.Col < 0 ∨ m.To.Col > 7
    · rw [if_pos hR2]
      constructor
      · intro h; exact absurd h (by simp)
      · rintro ⟨_, hin, _⟩
        unfold inRange at hin
        omega
    · rw [if_neg hR2]
      push_neg at hR2
      have hin1 : inRange m.From := by unfold inRange; omega
      have hin2 : inRange m.To := by unfold inRange; omega
      by_cases hEmpty : (b.cell m.From.Row m.From.Col).kind = PieceType.Empty
      · rw [if_pos hEmpty]
        constructor
        · intro h; exact absurd h (by simp)
        · rintro ⟨_, _, hne, _⟩; exact absurd hEmpty hne
      · rw [if_neg hEmpty]
        by_cases hTurn : (b.cell m.From.Row m.From.Col).color ≠ b.CurrentTurn
        · rw [if_pos hTurn]
          constructor
          · intro h; exact absurd h (by simp)
          · rintro ⟨_, _, _, heq, _⟩; exact absurd heq hTurn
        · rw [if_neg hTurn]
          rw [not_not] at hTurn
          by_cases hTgt : (b.cell m.To.Row m.To.Col).kind ≠ PieceType.Empty ∧
              (b.cell m.To.Row m.To.Col).color = (b.cell m.From.Row m.From.Col).color
          · rw [if_pos hTgt]
            constructor
            · intro h; exact absurd h (by simp)
            · rintro ⟨_, _, _, _, hno, _⟩; exact absurd hTgt hno
          · rw [if_neg hTgt]
            have hbound : max (absI (m.To.Row - m.From.Row)) (absI (m.To.Col - m.From.Col)) ≤ 16 := by
              have hb1 : absI (m.To.Row - m.From.Row) ≤ 16 :=
                absI_le_16 (by omega) (by omega)
              have hb2 : absI (m.To.Col - m.From.Col) ≤ 16 :=
                absI_le_16 (by omega) (by omega)
              exact max_le hb1 hb2
            have hpiece : ((match (b.cell m.From.Row m.From.Col).kind with
                | PieceType.Pawn => isValidPawnMove b m (b.cell m.From.Row m.From.Col)
                | PieceType.Knight => isValidKnightMove m
                | PieceType.Bishop => isValidBishopMove b m
                | PieceType.Rook => isValidRookMove b m
                | PieceType.Queen => isValidQueenMove b m
                | PieceType.King => isValidKingMove b m (b.cell m.From.Row m.From.Col)
                | PieceType.Empty => false) = true) ↔
                specPieceRule b m (b.cell m.From.Row m.From.Col) := by
              unfold specPieceRule
              cases hk : (b.cell m.From.Row m.From.Col).kind
              · exact absurd hk hEmpty
              · exact isValidPawnMove_iff b m (b.cell m.From.Row m.From.Col)
              · exact isValidKnightMove_iff m
              · exact isValidBishopMove_iff b m hbound
              · exact isValidRookMove_iff b m hbound
              · exact isValidQueenMove_iff b m hbound
              · exact isValidKingMove_iff b m (b.cell m.From.Row m.From.Col)
            split_ifs with hv
            · constructor
              · intro h; exact absurd h (by simp)
              · rintro ⟨_, _, _, _, _, hspec, _⟩
                rw [← hpiece] at hspec
                rw [hv] at hspec
                exact absurd hspec (by simp)
            · rw [Bool.not_eq_false] at hv
              constructor
              · intro h
                rw [decide_eq_true_eq, Bool.not_eq_true] at h
                exact ⟨hin1, hin2, hEmpty, hTurn, hTgt, hpiece.mp hv, h⟩
              · rintro ⟨_, _, _, _, _, _, hchk⟩
                rw [decide_eq_true_eq, Bool.not_eq_true]
                exact hchk

/-! ## Claim theorems: move legality (C1) and castling (C3). -/

/-- C1 counterexample: `IsValidMove` accepts the en-passant capture e5×d6
on `epPinBoard` (black rook a5, black pawn d5, white pawn e5, white king
h5), yet applying the move with its full effects — including removal of the
captured d5 pawn — leaves White's own king in check along the fifth rank.
The check simulation (`wouldBeInCheck`) only relocates the capturing pawn
and misses the discovered rook attack, refuting "returns true only for
fully legal moves". -/
theorem c1_counterexample :
    IsValidMove epPinBoard epPinMove = true ∧
    isInCheck (MakeMove epPinBoard epPinMove) Color.White = true :=
  ⟨by decide, by decide⟩

/-- C1 (amended): `IsValidMove` returns true exactly when both squares are
in range, the source holds a piece of the side to move, the destination
does not hold a same-color piece, the piece-specific movement rule of
spec §4.1 holds, and the move **as a bare piece relocation** (without
en-passant pawn removal or castling rook relocation — the code's
`wouldBeInCheck` simulation) does not leave the mover's own king in
check. -/
theorem c1_amended_legality (b : Board) (m : Move) :
    (IsValidMove b m = true ↔ SpecLegal b m) :=
  IsValidMove_iff_SpecLegal b m

/-- C3: whenever `IsValidMove` accepts a two-square horizontal king move,
all castling preconditions hold: the king has never moved, the relevant
rook has never moved, every square strictly between king and rook is empty,
the king's start square is not attacked by the opponent, and both squares
the king transits (the intermediate one and the destination) are not
attacked by the opponent. -/
theorem c3_castling_necessary (b : Board) (m : Move) (c : Color)
    (hvalid : IsValidMove b m = true)
    (hking : b.cell m.From.Row m.From.Col = ⟨PieceType.King, c⟩)
    (hrow : m.To.Row = m.From.Row)
    (hcol : absI (m.To.Col - m.From.Col) = 2) :
    (if c = Color.White then b.WhiteKingMoved = false else b.BlackKingMoved = false) ∧
    (if c = Color.White then
      (if m.From.Col < m.To.Col then b.WhiteRookHMoved = false else b.WhiteRookAMoved = false)
     else
      (if m.From.Col < m.To.Col then b.BlackRookHMoved = false else b.BlackRookAMoved = false)) ∧
    (∀ col : ℤ, min m.From.Col (if m.From.Col < m.To.Col then (7 : ℤ) else 0) < col →
      col < max m.From.Col (if m.From.Col < m.To.Col then (7 : ℤ) else 0) →
      (b.cell m.From.Row col).kind = PieceType.Empty) ∧
    isSquareUnderAttack b m.From (opponentOf c) = false ∧
    isSquareUnderAttack b
      ⟨m.From.Row, m.From.Col + (if m.To.Col < m.From.Col then (-1 : ℤ) else 1)⟩
      (opponentOf c) = false ∧
    isSquareUnderAttack b m.To (opponentOf c) = false := by
  have hspec := (IsValidMove_iff_SpecLegal b m).mp hvalid
  obtain ⟨_, _, _, _, _, hrule, _⟩ := hspec
  rw [hking] at hrule
  have hkr : specKingRule b m c := hrule
  rcases hkr with ⟨_, hc1⟩ | ⟨_, _, hcastle⟩
  · exfalso; omega
  · obtain ⟨h1, h2, _, h4, h5, h6, h7⟩ := hcastle
    exact ⟨h1, h2, h4, h5, h6, h7⟩

/-- Witness for C3: White's kingside castling e1–g1 on `castleBoard` is
accepted, so all castling preconditions hold there. -/
theorem c3_witness :
    IsValidMove castleBoard castleMove = true ∧
    (castleBoard.WhiteKingMoved = false ∧
      castleBoard.WhiteRookHMoved = false ∧
      (∀ col : ℤ, min castleMove.From.Col 7 < col → col < max castleMove.From.Col 7 →
        (castleBoard.cell castleMove.From.Row col).kind = PieceType.Empty) ∧
      isSquareUnderAttack castleBoard castleMove.From (opponentOf Color.White) = false ∧
      isSquareUnderAttack castleBoard ⟨7, 5⟩ (opponentOf Color.White) = false ∧
      isSquareUnderAttack castleBoard castleMove.To (opponentOf Color.White) = false) := by
  have h := c3_castling_necessary castleBoard castleMove Color.White
    (by decide) (by decide) (by decide) (by decide)
  refine ⟨by decide, ?_, ?_, ?_, ?_, ?_, ?_⟩
  · have := h.1
    simpa using this
  · have := h.2.1
    simpa using this
  · have := h.2.2.1
    intro col h1 h2
    exact this col (by simpa using h1) (by simpa using h2)
  · exact h.2.2.2.1
  · have := h.2.2.2.2.1
    simpa using this
  · exact h.2.2.2.2.2

end ChessAI
